import Mathlib

/-!
EN7523 clock and GPIO drivers.

A shallow embedding of `drivers/clk/clk-en7523.c`, `drivers/gpio/gpio-en7523.c`
and `include/dt-bindings/clock/en7523-clk.h`.

Conventions of the embedding:

* a `u32` is a `Nat` below `2 ^ 32`; every place where C truncates to 32 bits
  carries an explicit `% 2 ^ 32`;
* a register window (`void __iomem *`) is a map from byte offsets to register
  contents; `readl` returns the content truncated to 32 bits, `writel` stores
  the truncated value, so a register reads back the last value written;
* code that writes registers or waits threads a state that also carries the
  ordered log of every write and delay performed.
-/

namespace EN7523

/-! ## Register windows -/

/-- A memory-mapped register window: byte offset to register content. -/
abbrev iomem := Nat → Nat

/-- The number of values of a `u32`. -/
def U32_MOD : Nat := 2 ^ 32

/-- The kernel accessor `readl(base + off)`: a 32-bit read. -/
def readl (base : iomem) (off : Nat) : Nat := base off % U32_MOD

/-- The kernel helper `BIT(n)`, i.e. `1UL << n`. -/
def BIT (n : Nat) : Nat := 1 <<< n

/-- Bitwise complement of a `u32` (C `~x` truncated to 32 bits). -/
def not32 (x : Nat) : Nat := (U32_MOD - 1) ^^^ (x % U32_MOD)

/-! ## Identifiers (`include/dt-bindings/clock/en7523-clk.h`) -/

def EN7523_CLK_GSW : Nat := 0
def EN7523_CLK_EMI : Nat := 1
def EN7523_CLK_BUS : Nat := 2
def EN7523_CLK_SLIC : Nat := 3
def EN7523_CLK_SPI : Nat := 4
def EN7523_CLK_NPU : Nat := 5
def EN7523_CLK_CRYPTO : Nat := 6
def EN7523_CLK_PCIE : Nat := 7
def EN7523_NUM_CLOCKS : Nat := 8

/-! ## Register layout (`clk-en7523.c`, lines 12-26) -/

def REG_PCI_CONTROL : Nat := 0x88
def REG_PCI_CONTROL_PERSTOUT : Nat := BIT 29
def REG_PCI_CONTROL_PERSTOUT1 : Nat := BIT 26
def REG_PCI_CONTROL_REFCLK : Nat := BIT 22
def REG_GSW_CLK_DIV_SEL : Nat := 0x1b4
def REG_EMI_CLK_DIV_SEL : Nat := 0x1b8
def REG_BUS_CLK_DIV_SEL : Nat := 0x1bc
def REG_SPI_CLK_DIV_SEL : Nat := 0x1c4
def REG_SPI_CLK_FREQ_SEL : Nat := 0x1c8
def REG_NPU_CLK_DIV_SEL : Nat := 0x1fc
def REG_CRYPTO_CLKSRC : Nat := 0x200
def REG_RESET_CONTROL : Nat := 0x834
def REG_RESET_CONTROL_PCIEHB : Nat := BIT 29
def REG_RESET_CONTROL_PCIE1 : Nat := BIT 27
def REG_RESET_CONTROL_PCIE2 : Nat := BIT 26

/-! ## The descriptor table -/

/-- The record `struct en_clk_desc`.  A field a C initialiser leaves out is
zero.  The anonymous union of `base_values` and `base_value` is kept as two
fields: every table entry initialises exactly one of them and the code reads
`base_value` only when `base_bits` is zero and `base_values` only otherwise.
`id` and `n_base_values` are `int` in C; every entry holds a non-negative
value there (an identifier, an `ARRAY_SIZE`). -/
structure en_clk_desc where
  id : Nat
  name : String
  base_reg : Nat := 0
  base_bits : Nat := 0
  base_shift : Nat := 0
  base_values : List Nat := []
  base_value : Nat := 0
  n_base_values : Nat := 0
  div_reg : Nat := 0
  div_bits : Nat := 0
  div_shift : Nat := 0
  div_val0 : Nat := 0
  div_step : Nat := 0
  deriving DecidableEq

def gsw_base : List Nat := [400000000, 500000000]
def emi_base : List Nat := [333000000, 400000000]
def bus_base : List Nat := [500000000, 540000000]
def slic_base : List Nat := [100000000, 3125000]
def npu_base : List Nat := [333000000, 400000000, 500000000]

/-- The kernel helper `ARRAY_SIZE`. -/
def ARRAY_SIZE {α : Type} (a : List α) : Nat := a.length

/-- The table `en7523_base_clks`. -/
def en7523_base_clks : List en_clk_desc := [
  { id := EN7523_CLK_GSW, name := "gsw",
    base_reg := REG_GSW_CLK_DIV_SEL, base_bits := 1, base_shift := 8,
    base_values := gsw_base, n_base_values := ARRAY_SIZE gsw_base,
    div_bits := 3, div_shift := 0, div_step := 1 },
  { id := EN7523_CLK_EMI, name := "emi",
    base_reg := REG_EMI_CLK_DIV_SEL, base_bits := 1, base_shift := 8,
    base_values := emi_base, n_base_values := ARRAY_SIZE emi_base,
    div_bits := 3, div_shift := 0, div_step := 1 },
  { id := EN7523_CLK_BUS, name := "bus",
    base_reg := REG_BUS_CLK_DIV_SEL, base_bits := 1, base_shift := 8,
    base_values := bus_base, n_base_values := ARRAY_SIZE bus_base,
    div_bits := 3, div_shift := 0, div_step := 1 },
  { id := EN7523_CLK_SLIC, name := "slic",
    base_reg := REG_SPI_CLK_FREQ_SEL, base_bits := 1, base_shift := 0,
    base_values := slic_base, n_base_values := ARRAY_SIZE slic_base,
    div_reg := REG_SPI_CLK_DIV_SEL, div_bits := 5, div_shift := 24,
    div_val0 := 20, div_step := 2 },
  { id := EN7523_CLK_SPI, name := "spi",
    base_reg := REG_SPI_CLK_DIV_SEL,
    base_value := 400000000,
    div_bits := 5, div_shift := 8, div_val0 := 40, div_step := 2 },
  { id := EN7523_CLK_NPU, name := "npu",
    base_reg := REG_NPU_CLK_DIV_SEL, base_bits := 2, base_shift := 8,
    base_values := npu_base, n_base_values := ARRAY_SIZE npu_base,
    div_bits := 3, div_shift := 0, div_step := 1 },
  { id := EN7523_CLK_CRYPTO, name := "crypto",
    base_reg := REG_CRYPTO_CLKSRC, base_bits := 1, base_shift := 8,
    base_values := emi_base, n_base_values := ARRAY_SIZE emi_base }
]

/-- An index into `en7523_base_clks`: the `int i` of the C code, which the
only caller runs from `0` to `ARRAY_SIZE(en7523_base_clks) - 1`. -/
abbrev clk_index := Fin (ARRAY_SIZE en7523_base_clks)

/-! ## Clock rate resolver -/

/-- The function `en7523_get_base_rate`.  The mask `(1 << bits) - 1` is
computed in `int`; every table entry has `bits <= 5`, so it never overflows.
The read `base_values[val]` is guarded by `val < n_base_values`. -/
def en7523_get_base_rate (base : iomem) (i : clk_index) : Nat :=
  let desc := en7523_base_clks.get i
  if desc.base_bits = 0 then
    desc.base_value
  else
    let val := readl base desc.base_reg
    let val := val >>> desc.base_shift
    let val := val &&& ((1 <<< desc.base_bits) - 1)
    if val ≥ desc.n_base_values then
      0
    else
      desc.base_values.getD val 0

/-- The function `en7523_get_div`.  The product is a `u32`, hence taken
modulo `2 ^ 32`. -/
def en7523_get_div (base : iomem) (i : clk_index) : Nat :=
  let desc := en7523_base_clks.get i
  if desc.div_bits = 0 then
    1
  else
    let reg := if desc.div_reg ≠ 0 then desc.div_reg else desc.base_reg
    let val := readl base reg
    let val := val >>> desc.div_shift
    let val := val &&& ((1 <<< desc.div_bits) - 1)
    if val = 0 ∧ desc.div_val0 ≠ 0 then
      desc.div_val0
    else
      ((val + 1) * desc.div_step) % U32_MOD

/-! ## Register writes and delays -/

/-- One observable step of a routine on a register window: a 32-bit write
`writel(val, base + off)` or a busy wait `mdelay(msecs)`. -/
inductive io_event where
  | writel (val off : Nat)
  | mdelay (msecs : Nat)
  deriving DecidableEq

/-- A register window together with the ordered log of the writes and delays
performed on it so far. -/
structure mmio where
  regs : iomem
  log : List io_event

/-- The kernel accessor `writel(val, base + off)`: the register takes the
value (truncated to 32 bits) and the write is logged. -/
def writel (val off : Nat) (w : mmio) : mmio :=
  { regs := fun a => if a = off then val % U32_MOD else w.regs a,
    log := w.log ++ [io_event.writel val off] }

/-- The kernel helper `mdelay(msecs)`: no register changes, the wait is
logged. -/
def mdelay (msecs : Nat) (w : mmio) : mmio :=
  { w with log := w.log ++ [io_event.mdelay msecs] }

/-! ## The PCIe gate -/

/-- The part of `struct clk_init_data` the driver fills in.  Its `ops` field
always points to the constant `pcie_gate_ops` (`is_enabled`, `enable`,
`disable` below). -/
structure clk_init_data where
  name : String
  deriving DecidableEq

/-- The part of `struct clk_hw` the driver touches (`NULL` is `none`). -/
structure clk_hw where
  init : Option clk_init_data := none

/-- The record `struct en_clk_gate`: `base` is the window the gate works on
(with the log of what has been done to it). -/
structure en_clk_gate where
  base : mmio
  hw : clk_hw := {}

/-- The function `en7523_pci_is_enabled`; `!!x` is `1` for non-zero `x`. -/
def en7523_pci_is_enabled (cg : en_clk_gate) : Int :=
  if readl cg.base.regs REG_PCI_CONTROL &&& REG_PCI_CONTROL_REFCLK ≠ 0 then 1 else 0

/-- The function `en7523_pci_enable`, statement by statement. -/
def en7523_pci_enable (cg : en_clk_gate) : en_clk_gate × Int :=
  let np_base := cg.base
  let val := readl np_base.regs REG_PCI_CONTROL
  let val := val &&& not32 (REG_PCI_CONTROL_PERSTOUT1 ||| REG_PCI_CONTROL_PERSTOUT)
  let np_base := writel val REG_PCI_CONTROL np_base
  let np_base := mdelay 1 np_base
  let val := val ||| REG_PCI_CONTROL_REFCLK
  let np_base := writel val REG_PCI_CONTROL np_base
  let np_base := mdelay 1 np_base
  let val := readl np_base.regs REG_RESET_CONTROL
  let mask := REG_RESET_CONTROL_PCIE1 ||| REG_RESET_CONTROL_PCIE2 |||
    REG_RESET_CONTROL_PCIEHB
  let np_base := writel (val &&& not32 mask) REG_RESET_CONTROL np_base
  let np_base := mdelay 1 np_base
  let np_base := writel (val ||| mask) REG_RESET_CONTROL np_base
  let np_base := mdelay 100 np_base
  let np_base := writel (val &&& not32 mask) REG_RESET_CONTROL np_base
  let np_base := mdelay 5 np_base
  let mask := REG_PCI_CONTROL_PERSTOUT1 ||| REG_PCI_CONTROL_PERSTOUT
  let val := readl np_base.regs REG_PCI_CONTROL
  let np_base := writel (val &&& not32 mask) REG_PCI_CONTROL np_base
  let np_base := mdelay 1 np_base
  let np_base := writel (val ||| mask) REG_PCI_CONTROL np_base
  let np_base := mdelay 250 np_base
  ({ cg with base := np_base }, 0)

/-- The function `en7523_pci_disable`. -/
def en7523_pci_disable (cg : en_clk_gate) : en_clk_gate :=
  let np_base := cg.base
  let val := readl np_base.regs REG_PCI_CONTROL
  let val := val &&& not32 REG_PCI_CONTROL_REFCLK
  let np_base := writel val REG_PCI_CONTROL np_base
  { cg with base := np_base }

/-! ## Registration -/

/-- A clock handle (`struct clk *` that is neither `NULL` nor an error). -/
structure clk where
  handle : Nat
  deriving DecidableEq

/-- One call `clk_register_fixed_rate(NULL, name, NULL, 0, rate)`. -/
structure fixed_rate_call where
  name : String
  rate : Nat
  deriving DecidableEq

/-- The kernel services the driver calls and whose code is outside the
driver; each is a parameter.
* `clk_register_fixed_rate` answers a call from the calls made before it, the
  name and the rate: a handle, or an error code (`ERR_PTR`);
* `devm_kzalloc` says whether the allocation of the gate succeeds;
* `clk_register` receives the gate as it is at the call and answers with a
  handle or an error code.  The gate is registered with `flags = 0`, for which
  registration calls neither `enable` nor `disable`; it is therefore taken to
  leave the register window as it is. -/
structure clk_services where
  clk_register_fixed_rate : List fixed_rate_call → String → Nat → Except Int clk
  devm_kzalloc : Bool
  clk_register : en_clk_gate → Except Int clk

/-- What `en7523_register_pcie_clk` leaves behind: the returned pointer
(`none` is `NULL`), the register window, and the gate handed to
`clk_register` if that call was reached. -/
structure pcie_clk_result where
  clk : Option clk
  np_base : mmio
  registered : Option en_clk_gate

/-- The function `en7523_register_pcie_clk`. -/
def en7523_register_pcie_clk (env : clk_services) (np_base : mmio) : pcie_clk_result :=
  let init : clk_init_data := { name := "pcie" }
  if ¬ env.devm_kzalloc then
    { clk := none, np_base := np_base, registered := none }
  else
    let cg : en_clk_gate := { base := np_base, hw := { init := some init } }
    let cg := en7523_pci_disable cg
    match env.clk_register cg with
    | Except.error _ => { clk := none, np_base := cg.base, registered := some cg }
    | Except.ok c => { clk := some c, np_base := cg.base, registered := some cg }

/-- The record `struct clk_onecell_data`: `clks` is the export array (`none`
is a `NULL` slot). -/
structure clk_onecell_data where
  clks : List (Option clk)
  clk_num : Nat
  deriving DecidableEq

/-- The state of `en7523_register_clocks` while it runs: the export data, the
calls made to `clk_register_fixed_rate` so far, and the failures reported
through `pr_err` (name and error code). -/
structure register_state where
  clk_data : clk_onecell_data
  calls : List fixed_rate_call
  errors : List (String × Int)

/-- One iteration of the loop of `en7523_register_clocks`.  The division is
the `u32` division of C; `en7523_get_div` is never zero on a table entry. -/
def en7523_register_clocks_step (env : clk_services) (base : iomem)
    (s : register_state) (i : clk_index) : register_state :=
  let desc := en7523_base_clks.get i
  let rate := en7523_get_base_rate base i
  let rate := rate / en7523_get_div base i
  match env.clk_register_fixed_rate s.calls desc.name rate with
  | Except.error e =>
    { s with calls := s.calls ++ [{ name := desc.name, rate := rate }],
             errors := s.errors ++ [(desc.name, e)] }
  | Except.ok c =>
    { s with calls := s.calls ++ [{ name := desc.name, rate := rate }],
             clk_data := { s.clk_data with clks := s.clk_data.clks.set desc.id (some c) } }

/-- What `en7523_register_clocks` leaves behind. -/
structure register_result where
  clk_data : clk_onecell_data
  calls : List fixed_rate_call
  errors : List (String × Int)
  pcie : pcie_clk_result

/-- The function `en7523_register_clocks`: the loop over the table in index
order, then the PCIe gate. -/
def en7523_register_clocks (env : clk_services) (clk_data : clk_onecell_data)
    (base : iomem) (np_base : mmio) : register_result :=
  let s := (List.finRange (ARRAY_SIZE en7523_base_clks)).foldl
    (en7523_register_clocks_step env base)
    { clk_data := clk_data, calls := [], errors := [] }
  let r := en7523_register_pcie_clk env np_base
  let clks := s.clk_data.clks.set EN7523_CLK_PCIE r.clk
  { clk_data := { clks := clks, clk_num := EN7523_NUM_CLOCKS },
    calls := s.calls, errors := s.errors, pcie := r }

/-! ## The GPIO bit controller (`gpio-en7523.c`) -/

def ECONET_GPIO_MAX : Nat := 32

/-- The registers `struct econet_gpio_ctrl` points to: `data`, `dir[n]` and
`output`.  Only `dir[0]` and `dir[1]` exist; the chip has `ECONET_GPIO_MAX`
lines, so `gpio / 16` is `0` or `1` for every line. -/
inductive gpio_reg where
  | data
  | dir (n : Nat)
  | output
  deriving DecidableEq

/-- One observable step of a GPIO routine: a 32-bit write
`iowrite32(val, reg)` or a call `gc->set(gc, gpio, val)`. -/
inductive gpio_event where
  | iowrite32 (val : Nat) (reg : gpio_reg)
  | set (gpio : Nat) (val : Int)
  deriving DecidableEq

/-- The contents of the GPIO registers and the ordered log of the writes and
value-set calls performed so far. -/
structure econet_gpio_ctrl where
  regs : gpio_reg → Nat
  log : List gpio_event

/-- The part of `struct gpio_chip` the driver calls back into: `set` is the
value-set operation installed by `bgpio_init`.  Its code is outside the
driver; it is a parameter giving the new register contents. -/
structure gpio_chip where
  set : Nat → Int → (gpio_reg → Nat) → (gpio_reg → Nat)

/-- The kernel accessor `ioread32(reg)`. -/
def ioread32 (ctrl : econet_gpio_ctrl) (reg : gpio_reg) : Nat :=
  ctrl.regs reg % U32_MOD

/-- The kernel accessor `iowrite32(val, reg)`. -/
def iowrite32 (val : Nat) (reg : gpio_reg) (ctrl : econet_gpio_ctrl) : econet_gpio_ctrl :=
  { regs := fun r => if r = reg then val % U32_MOD else ctrl.regs r,
    log := ctrl.log ++ [gpio_event.iowrite32 val reg] }

/-- The function `econet_dir_set`. -/
def econet_dir_set (gc : gpio_chip) (ctrl : econet_gpio_ctrl) (gpio : Nat)
    (val : Int) (out : Int) : econet_gpio_ctrl × Int :=
  let dir := ioread32 ctrl (gpio_reg.dir (gpio / 16))
  let output := ioread32 ctrl gpio_reg.output
  let mask := BIT ((gpio % 16) * 2)
  let dir := if out ≠ 0 then dir ||| mask else dir &&& not32 mask
  let output := if out ≠ 0 then output ||| BIT gpio else output &&& not32 (BIT gpio)
  let ctrl := iowrite32 dir (gpio_reg.dir (gpio / 16)) ctrl
  let ctrl := iowrite32 output gpio_reg.output ctrl
  let ctrl :=
    if out ≠ 0 then
      { regs := gc.set gpio val ctrl.regs, log := ctrl.log ++ [gpio_event.set gpio val] }
    else ctrl
  (ctrl, 0)

/-- The function `econet_dir_out`. -/
def econet_dir_out (gc : gpio_chip) (ctrl : econet_gpio_ctrl) (gpio : Nat)
    (val : Int) : econet_gpio_ctrl × Int :=
  econet_dir_set gc ctrl gpio val 1

/-- The function `econet_dir_in`. -/
def econet_dir_in (gc : gpio_chip) (ctrl : econet_gpio_ctrl) (gpio : Nat) :
    econet_gpio_ctrl × Int :=
  econet_dir_set gc ctrl gpio 0 0

/-- The function `econet_get_dir`: the state it leaves and the value it
returns (`dir & mask`, below `2 ^ 31` for every line). -/
def econet_get_dir (ctrl : econet_gpio_ctrl) (gpio : Nat) : econet_gpio_ctrl × Nat :=
  let dir := ioread32 ctrl (gpio_reg.dir (gpio / 16))
  let mask := BIT ((gpio % 16) * 2)
  (ctrl, dir &&& mask)

/-! ## Fields of a register, as the specification names them -/

/-- The field of `width` bits starting at bit `shift` of the 32-bit
content `r`: `(r >> shift) & (2 ^ width - 1)`. -/
def reg_field (r shift width : Nat) : Nat := (r >>> shift) &&& (2 ^ width - 1)

/-- The register a descriptor's divider field lives in: `div_reg` when it is
set, `base_reg` otherwise. -/
def divider_register (desc : en_clk_desc) : Nat :=
  if desc.div_reg ≠ 0 then desc.div_reg else desc.base_reg

/-- The table index of the NPU descriptor. -/
def npu_index : clk_index := ⟨5, by decide⟩

/-- The table index of the GSW descriptor. -/
def gsw_index : clk_index := ⟨0, by decide⟩

/-- The table index of the SLIC descriptor. -/
def slic_index : clk_index := ⟨3, by decide⟩

/-- The table index of the SPI descriptor. -/
def spi_index : clk_index := ⟨4, by decide⟩

/-- The call `en7523_register_clocks` makes for table index `i` on the
register block `base`, as the specification describes it: the entry's name and
the floor of base rate over divider. -/
def resolved_call (base : iomem) (i : clk_index) : fixed_rate_call :=
  { name := (en7523_base_clks.get i).name,
    rate := en7523_get_base_rate base i / en7523_get_div base i }

/-- The two endpoint-reset outputs of the PCI-control register. -/
def PERST_MASK : Nat := REG_PCI_CONTROL_PERSTOUT ||| REG_PCI_CONTROL_PERSTOUT1

/-- The three PCIe reset bits of the reset-control register. -/
def PCIE_RESET_MASK : Nat :=
  REG_RESET_CONTROL_PCIEHB ||| REG_RESET_CONTROL_PCIE1 ||| REG_RESET_CONTROL_PCIE2

/-- The sequence of writes and delays the specification mandates for the
enable operation, from the initial content `p` of PCI-control, the initial
content `r` of reset-control, and the content `p'` of PCI-control when it is
read again after the reset writes. -/
def pci_enable_sequence (p r p' : Nat) : List io_event :=
  [ io_event.writel (p &&& not32 PERST_MASK) 0x88,
    io_event.mdelay 1,
    io_event.writel ((p &&& not32 PERST_MASK) ||| REG_PCI_CONTROL_REFCLK) 0x88,
    io_event.mdelay 1,
    io_event.writel (r &&& not32 PCIE_RESET_MASK) 0x834,
    io_event.mdelay 1,
    io_event.writel (r ||| PCIE_RESET_MASK) 0x834,
    io_event.mdelay 100,
    io_event.writel (r &&& not32 PCIE_RESET_MASK) 0x834,
    io_event.mdelay 5,
    io_event.writel (p' &&& not32 PERST_MASK) 0x88,
    io_event.mdelay 1,
    io_event.writel (p' ||| REG_PCI_CONTROL_PERSTOUT ||| REG_PCI_CONTROL_PERSTOUT1) 0x88,
    io_event.mdelay 250 ]

/-- The register contents after a sequence of logged steps, for registers
that keep the last value written: a write stores its value (32 bits), a delay
changes nothing. -/
def replay : List io_event → iomem → iomem
  | [], regs => regs
  | io_event.writel val off :: rest, regs =>
    replay rest (fun a => if a = off then val % U32_MOD else regs a)
  | io_event.mdelay _ :: rest, regs => replay rest regs

/-- The GPIO state after the two register writes of `econet_dir_set` for line
`gpio`: `dir` goes to the direction register of the line's half, `output` to
the output-enable register. -/
def after_dir_writes (ctrl : econet_gpio_ctrl) (gpio dir output : Nat) : econet_gpio_ctrl :=
  iowrite32 output gpio_reg.output (iowrite32 dir (gpio_reg.dir (gpio / 16)) ctrl)

/-! ## Sample inputs -/

/-- Kernel services that refuse everything. -/
def failing_services : clk_services :=
  { clk_register_fixed_rate := fun _ _ _ => Except.error (-12),
    devm_kzalloc := false,
    clk_register := fun _ => Except.error (-12) }

/-- Kernel services that grant everything: the `n`-th fixed-rate call gets
handle `n`, the gate gets handle 100. -/
def granting_services : clk_services :=
  { clk_register_fixed_rate := fun calls _ _ => Except.ok { handle := calls.length },
    devm_kzalloc := true,
    clk_register := fun _ => Except.ok { handle := 100 } }

/-- An export array of eight empty slots, as `devm_kcalloc` returns it. -/
def empty_clk_data : clk_onecell_data :=
  { clks := List.replicate EN7523_NUM_CLOCKS none, clk_num := 0 }

/-- A register window in which every register holds `v`, nothing logged. -/
def uniform_window (v : Nat) : mmio := { regs := fun _ => v, log := [] }

/-- A register block in which register 0x1c8 holds 1 and the others 0. -/
def slic_block : iomem := fun off => if off = 0x1c8 then 1 else 0

/-- GPIO registers that all hold zero, nothing logged. -/
def zero_gpio : econet_gpio_ctrl := { regs := fun _ => 0, log := [] }

/-- A value-set operation that touches the data register only: it sets or
clears the line's bit there. -/
def data_only_chip : gpio_chip :=
  { set := fun gpio val regs r =>
      if r = gpio_reg.data then
        (if val ≠ 0 then regs gpio_reg.data ||| BIT gpio
         else regs gpio_reg.data &&& not32 (BIT gpio))
      else regs r }

/-! ## Stores into the export array -/

/-- The calls made to `clk_register_fixed_rate` before the loop of
`en7523_register_clocks` reaches table index `i`: one for every earlier
index. -/
def calls_before (base : iomem) (i : clk_index) : List fixed_rate_call :=
  ((List.finRange (ARRAY_SIZE en7523_base_clks)).take i.val).map (resolved_call base)

/-- The answer `clk_register_fixed_rate` gives to the call made for table
index `i`. -/
def fixed_rate_outcome (env : clk_services) (base : iomem) (i : clk_index) : Except Int clk :=
  env.clk_register_fixed_rate (calls_before base i) (en7523_base_clks.get i).name
    (en7523_get_base_rate base i / en7523_get_div base i)

/-- The stores `clk_data->clks[desc->id] = clk` (line 299) performed by the
loop of `en7523_register_clocks` over the indices `l`, in order, `calls` being
the registration calls made so far: slot index and stored pointer.  An
iteration whose registration fails stores nothing. -/
def loop_stores (env : clk_services) (base : iomem) :
    List clk_index → List fixed_rate_call → List (Nat × Option clk)
  | [], _ => []
  | i :: l, calls =>
    match env.clk_register_fixed_rate calls (en7523_base_clks.get i).name
        (en7523_get_base_rate base i / en7523_get_div base i) with
    | Except.error _ => loop_stores env base l (calls ++ [resolved_call base i])
    | Except.ok c =>
      ((en7523_base_clks.get i).id, some c)
        :: loop_stores env base l (calls ++ [resolved_call base i])

/-- Every store into `clk_data->clks` performed by `en7523_register_clocks`,
in order: those of the loop, then `clks[EN7523_CLK_PCIE] = clk` (line 303). -/
def en7523_register_clocks_stores (env : clk_services) (base : iomem) (np_base : mmio) :
    List (Nat × Option clk) :=
  loop_stores env base (List.finRange (ARRAY_SIZE en7523_base_clks)) []
    ++ [(EN7523_CLK_PCIE, (en7523_register_pcie_clk env np_base).clk)]

/-- An array after a sequence of stores. -/
def apply_stores (clks : List (Option clk)) (stores : List (Nat × Option clk)) :
    List (Option clk) :=
  stores.foldl (fun a w => a.set w.1 w.2) clks

/-! ## Total delay -/

/-- The sum of the arguments of the `mdelay` calls in a log. -/
def delay_total : List io_event → Nat
  | [] => 0
  | io_event.writel _ _ :: rest => delay_total rest
  | io_event.mdelay msecs :: rest => msecs + delay_total rest

/-! ## Probe -/

/-- The error code `ENOMEM`. -/
def ENOMEM : Int := 12

/-- A pointer returned by `devm_platform_ioremap_resource`: a mapped window at
some address, or an error code wrapped by `ERR_PTR`. -/
inductive io_ptr (α : Type) where
  | mapped (addr : Nat) (window : α)
  | err_ptr (code : Int)

/-- The kernel helper `IS_ERR`. -/
def IS_ERR {α : Type} : io_ptr α → Bool
  | io_ptr.mapped _ _ => false
  | io_ptr.err_ptr _ => true

/-- The kernel helper `PTR_ERR`: the pointer value as a `long`. -/
def PTR_ERR {α : Type} : io_ptr α → Int
  | io_ptr.mapped addr _ => addr
  | io_ptr.err_ptr code => code

/-- The kernel services `en7523_clk_probe` calls directly; each is a
parameter.  `ioremap_0` and `ioremap_1` are the results of
`devm_platform_ioremap_resource(pdev, 0)` and `(pdev, 1)`, `kzalloc_clk_data`
and `kcalloc_clks` say whether the two allocations succeed, and
`of_clk_add_provider` returns its status for the export data it is given. -/
structure probe_services where
  clk : clk_services
  ioremap_0 : io_ptr iomem
  ioremap_1 : io_ptr mmio
  kzalloc_clk_data : Bool
  kcalloc_clks : Bool
  of_clk_add_provider : clk_onecell_data → Int

/-- How a run of `en7523_clk_probe` ends: it returns a status, or it faults on
an access through a pointer that is not a mapped window. -/
inductive probe_outcome where
  | returned (code : Int)
  | fault
  deriving DecidableEq

/-- What a run of `en7523_clk_probe` did: how it ended, the calls made to
`clk_register_fixed_rate`, and the export data handed to
`of_clk_add_provider` if that call was reached. -/
structure probe_result where
  outcome : probe_outcome
  calls : List fixed_rate_call
  provider : Option clk_onecell_data

/-- The loop of `en7523_register_clocks` alone (lines 286-300). -/
def en7523_register_clocks_loop (env : clk_services) (clk_data : clk_onecell_data)
    (base : iomem) : register_state :=
  (List.finRange (ARRAY_SIZE en7523_base_clks)).foldl
    (en7523_register_clocks_step env base)
    { clk_data := clk_data, calls := [], errors := [] }

/-- The tail of `en7523_clk_probe` from the call of `en7523_register_clocks`
on (lines 333-341), on the two pointers as probe holds them.
* With both windows mapped it is `en7523_register_clocks` followed by
  `of_clk_add_provider`.
* With `np_base` an error pointer the loop still runs, since it reads `base`
  only; `en7523_register_pcie_clk` then returns `NULL` when its allocation
  fails and otherwise faults in `en7523_pci_disable`, which reads through
  `np_base`.
* With `base` an error pointer the first `readl` of the loop faults. -/
def probe_register (env : probe_services) (clk_data : clk_onecell_data) :
    io_ptr iomem → io_ptr mmio → probe_result
  | io_ptr.mapped _ base, io_ptr.mapped _ np_base =>
    let res := en7523_register_clocks env.clk clk_data base np_base
    { outcome := probe_outcome.returned (env.of_clk_add_provider res.clk_data),
      calls := res.calls, provider := some res.clk_data }
  | io_ptr.mapped _ base, io_ptr.err_ptr _ =>
    let s := en7523_register_clocks_loop env.clk clk_data base
    if env.clk.devm_kzalloc then
      { outcome := probe_outcome.fault, calls := s.calls, provider := none }
    else
      let data : clk_onecell_data :=
        { clks := s.clk_data.clks.set EN7523_CLK_PCIE none, clk_num := EN7523_NUM_CLOCKS }
      { outcome := probe_outcome.returned (env.of_clk_add_provider data),
        calls := s.calls, provider := some data }
  | io_ptr.err_ptr _, _ =>
    { outcome := probe_outcome.fault, calls := [], provider := none }

/-- The function `en7523_clk_probe`.  The test after the second mapping is the
one the source has: `IS_ERR(base)`. -/
def en7523_clk_probe (env : probe_services) : probe_result :=
  let base := env.ioremap_0
  if IS_ERR base then
    { outcome := probe_outcome.returned (PTR_ERR base), calls := [], provider := none }
  else
    let np_base := env.ioremap_1
    if IS_ERR base then
      { outcome := probe_outcome.returned (PTR_ERR np_base), calls := [], provider := none }
    else if ¬ env.kzalloc_clk_data then
      { outcome := probe_outcome.returned (-ENOMEM), calls := [], provider := none }
    else if ¬ env.kcalloc_clks then
      { outcome := probe_outcome.returned (-ENOMEM), calls := [], provider := none }
    else
      let clk_data : clk_onecell_data :=
        { clks := List.replicate EN7523_NUM_CLOCKS none, clk_num := 0 }
      probe_register env clk_data base np_base

/-- Probe services in which window 0 maps (all registers zero), the mapping
of window 1 fails with `-EBUSY` (-16), and everything else is granted. -/
def window1_fails : probe_services :=
  { clk := granting_services,
    ioremap_0 := io_ptr.mapped 0xbfb00000 (fun _ => 0),
    ioremap_1 := io_ptr.err_ptr (-16),
    kzalloc_clk_data := true,
    kcalloc_clks := true,
    of_clk_add_provider := fun _ => 0 }

/-- Clock services that grant every request except the fixed-rate
registration called `name`, which fails with `-ENOMEM`. -/
def failing_only (name : String) : clk_services :=
  { clk_register_fixed_rate := fun calls n _ =>
      if n = name then Except.error (-12) else Except.ok { handle := calls.length },
    devm_kzalloc := true,
    clk_register := fun _ => Except.ok { handle := 100 } }

/-- A register block that agrees with `slic_block` on bit 0 of register 0x1c8
and on bits 24..28 of register 0x1c4, and differs from it everywhere else. -/
def slic_block_noise : iomem :=
  fun off => if off = 0x1c8 then 0xffffffff else if off = 0x1c4 then 0xe0ffffff else 0x12345678

/-- A register block that agrees with the all-zero block on bit 8 and on bits
0..2 of register 0x1b4, and differs from it everywhere else. -/
def gsw_block_noise : iomem :=
  fun off => if off = 0x1b4 then 0xfffffef8 else 0xffffffff

/-- A register block like `slic_block` except that bits 24..28 of register
0x1c4 hold 1, while register 0x1c8 has its bits 24..28 all set. -/
def slic_block_div1 : iomem :=
  fun off => if off = 0x1c8 then 0x1f000001 else if off = 0x1c4 then 0x01000000 else 0

/-! ## Bit-level lemmas -/

theorem readl_lt (base : iomem) (off : Nat) : readl base off < 2 ^ 32 := by
  unfold readl U32_MOD
  exact Nat.mod_lt _ (by norm_num)

theorem testBit_u32_high {x i : Nat} (hx : x < 2 ^ 32) (hi : 32 ≤ i) :
    x.testBit i = false :=
  Nat.testBit_lt_two_pow (lt_of_lt_of_le hx (Nat.pow_le_pow_right (by norm_num) hi))

theorem testBit_not32 (x i : Nat) :
    (not32 x).testBit i = (decide (i < 32) && !x.testBit i) := by
  unfold not32 U32_MOD
  rw [Nat.testBit_xor, Nat.testBit_two_pow_sub_one, Nat.testBit_mod_two_pow]
  by_cases h : i < 32 <;> simp [h]

theorem testBit_BIT (n i : Nat) : (BIT n).testBit i = decide (n = i) := by
  unfold BIT
  rw [Nat.one_shiftLeft, Nat.testBit_two_pow]

theorem testBit_mod_u32 (x i : Nat) :
    (x % U32_MOD).testBit i = (decide (i < 32) && x.testBit i) := by
  unfold U32_MOD
  rw [Nat.testBit_mod_two_pow]

theorem mod_u32_of_lt {x : Nat} (h : x < 2 ^ 32) : x % U32_MOD = x :=
  Nat.mod_eq_of_lt h

theorem and_not32_or (x m : Nat) (hx : x < 2 ^ 32) : (x &&& not32 m) ||| m = x ||| m := by
  apply Nat.eq_of_testBit_eq
  intro i
  rw [Nat.testBit_or, Nat.testBit_and, testBit_not32, Nat.testBit_or]
  by_cases h : i < 32
  · simp only [h, decide_True, Bool.true_and]
    cases x.testBit i <;> cases m.testBit i <;> rfl
  · rw [testBit_u32_high hx (Nat.le_of_not_lt h)]
    simp

theorem and_lt_u32 {x : Nat} (y : Nat) (hx : x < 2 ^ 32) : x &&& y < 2 ^ 32 :=
  lt_of_le_of_lt Nat.and_le_left hx

theorem perst_mask_eq :
    REG_PCI_CONTROL_PERSTOUT1 ||| REG_PCI_CONTROL_PERSTOUT = PERST_MASK := by decide

theorem reset_mask_eq :
    REG_RESET_CONTROL_PCIE1 ||| REG_RESET_CONTROL_PCIE2 ||| REG_RESET_CONTROL_PCIEHB
      = PCIE_RESET_MASK := by decide

theorem or_perst (x : Nat) :
    x ||| REG_PCI_CONTROL_PERSTOUT ||| REG_PCI_CONTROL_PERSTOUT1 = x ||| PERST_MASK := by
  unfold PERST_MASK
  rw [Nat.lor_assoc]

theorem lor_swap_right (a b c : Nat) : a ||| b ||| c = a ||| c ||| b := by
  rw [Nat.lor_assoc, Nat.lor_comm b c, ← Nat.lor_assoc]

theorem ne_zero_of_testBit {x i : Nat} (h : x.testBit i = true) : x ≠ 0 := by
  rintro rfl
  simp at h

theorem reset_mask_testBit (i : Nat) :
    PCIE_RESET_MASK.testBit i = decide (i = 29 ∨ i = 27 ∨ i = 26) := by
  unfold PCIE_RESET_MASK REG_RESET_CONTROL_PCIEHB REG_RESET_CONTROL_PCIE1
    REG_RESET_CONTROL_PCIE2
  simp only [Nat.testBit_or, testBit_BIT, eq_comm (b := i)]
  simp [Bool.decide_or, Bool.or_assoc]

theorem refclk_testBit (i : Nat) : REG_PCI_CONTROL_REFCLK.testBit i = decide (i = 22) := by
  unfold REG_PCI_CONTROL_REFCLK
  simp only [testBit_BIT, eq_comm (b := i)]

theorem perst_mask_lt : PERST_MASK < 2 ^ 32 := by decide

theorem reset_mask_lt : PCIE_RESET_MASK < 2 ^ 32 := by decide

theorem refclk_lt : REG_PCI_CONTROL_REFCLK < 2 ^ 32 := by decide

/-! ## Base rate -/

theorem reg_field_eq (r s b : Nat) : reg_field r s b = r / 2 ^ s % 2 ^ b := by
  unfold reg_field
  rw [Nat.and_pow_two_sub_one_eq_mod, Nat.shiftRight_eq_div_pow]

theorem en7523_get_base_rate_eq (base : iomem) (i : clk_index) :
    en7523_get_base_rate base i =
      if (en7523_base_clks.get i).base_bits = 0 then (en7523_base_clks.get i).base_value
      else if reg_field (readl base (en7523_base_clks.get i).base_reg)
          (en7523_base_clks.get i).base_shift (en7523_base_clks.get i).base_bits
          ≥ (en7523_base_clks.get i).n_base_values then 0
      else (en7523_base_clks.get i).base_values.getD
        (reg_field (readl base (en7523_base_clks.get i).base_reg)
          (en7523_base_clks.get i).base_shift (en7523_base_clks.get i).base_bits) 0 := by
  simp only [en7523_get_base_rate, reg_field, Nat.one_shiftLeft]

theorem n_base_values_eq_length :
    ∀ i : clk_index,
      (en7523_base_clks.get i).n_base_values = (en7523_base_clks.get i).base_values.length := by
  decide

/-- C1: for every table entry with a selector field (`base_bits != 0`) and
every register content, `en7523_get_base_rate` returns `base_values[v]` when the
selector value `v` is below `n_base_values` and `0` otherwise, `v` being the
field `(r >> base_shift) & (2 ^ base_bits - 1)` of `base_reg`; for NPU the
selector values 0, 1, 2 give 333000000, 400000000, 500000000 and 3 gives 0. -/
theorem en7523_get_base_rate_lookup (base : iomem) :
    (∀ i : clk_index, (en7523_base_clks.get i).base_bits ≠ 0 →
      ∀ v, v = reg_field (readl base (en7523_base_clks.get i).base_reg)
              (en7523_base_clks.get i).base_shift (en7523_base_clks.get i).base_bits →
        (v < (en7523_base_clks.get i).n_base_values →
          (en7523_base_clks.get i).base_values[v]? = some (en7523_get_base_rate base i)) ∧
        ((en7523_base_clks.get i).n_base_values ≤ v → en7523_get_base_rate base i = 0)) ∧
    (∀ v, v = reg_field (readl base REG_NPU_CLK_DIV_SEL) 8 2 →
      v < 4 ∧
      (v = 0 → en7523_get_base_rate base npu_index = 333000000) ∧
      (v = 1 → en7523_get_base_rate base npu_index = 400000000) ∧
      (v = 2 → en7523_get_base_rate base npu_index = 500000000) ∧
      (v = 3 → en7523_get_base_rate base npu_index = 0)) := by
  refine ⟨?_, ?_⟩
  · intro i hbits v hv
    rw [en7523_get_base_rate_eq, if_neg hbits, ← hv]
    constructor
    · intro hlt
      rw [if_neg (Nat.not_le.mpr hlt)]
      rw [n_base_values_eq_length] at hlt
      rw [List.getD_eq_getElem _ _ hlt, List.getElem?_eq_getElem hlt]
    · intro hge
      rw [if_pos hge]
  · intro v hv
    have hlt : v < 4 := by
      rw [hv, reg_field_eq]
      exact Nat.mod_lt _ (by norm_num)
    have hv2 : reg_field (readl base (en7523_base_clks.get npu_index).base_reg)
        (en7523_base_clks.get npu_index).base_shift
        (en7523_base_clks.get npu_index).base_bits = v := hv.symm
    have hb : (en7523_base_clks.get npu_index).base_bits ≠ 0 := by decide
    rw [en7523_get_base_rate_eq, if_neg hb, hv2]
    refine ⟨hlt, ?_, ?_, ?_, ?_⟩ <;> intro h <;> subst h <;> rfl

/-- Witness of C1: NPU with selector 3 resolves to 0 and with selector 2 to the
third table entry. -/
theorem en7523_get_base_rate_lookup_witness :
    en7523_get_base_rate (fun _ => 0x300) npu_index = 0 ∧
    npu_base[2]? = some (en7523_get_base_rate (fun _ => 0x200) npu_index) :=
  ⟨((en7523_get_base_rate_lookup (fun _ => 0x300)).2 3 (by decide)).2.2.2.2 rfl,
   ((en7523_get_base_rate_lookup (fun _ => 0x200)).1 npu_index (by decide) 2 (by decide)).1
     (by decide)⟩

/-- C4: for every table entry without a selector field (`base_bits == 0`, which
is the SPI entry alone), `en7523_get_base_rate` returns the fixed `base_value`,
400000000, whatever the register block holds: any two register blocks give
the same result. -/
theorem en7523_get_base_rate_fixed (i : clk_index)
    (h : (en7523_base_clks.get i).base_bits = 0) (base base' : iomem) :
    en7523_get_base_rate base i = (en7523_base_clks.get i).base_value ∧
    en7523_get_base_rate base i = 400000000 ∧
    en7523_get_base_rate base i = en7523_get_base_rate base' i ∧
    i = spi_index := by
  have hspi : ∀ j : clk_index, (en7523_base_clks.get j).base_bits = 0 →
      (en7523_base_clks.get j).base_value = 400000000 ∧ j = spi_index := by decide
  rw [en7523_get_base_rate_eq, en7523_get_base_rate_eq, if_pos h, if_pos h]
  exact ⟨rfl, (hspi i h).1, rfl, (hspi i h).2⟩

/-- Witness of C4: the SPI entry on two different register blocks. -/
theorem en7523_get_base_rate_fixed_witness :
    en7523_get_base_rate (fun _ => 0) spi_index = 400000000 ∧
    en7523_get_base_rate (fun _ => 0) spi_index =
      en7523_get_base_rate (fun _ => 0xffffffff) spi_index :=
  ⟨(en7523_get_base_rate_fixed spi_index (by decide) (fun _ => 0) (fun _ => 0xffffffff)).2.1,
   (en7523_get_base_rate_fixed spi_index (by decide) (fun _ => 0) (fun _ => 0xffffffff)).2.2.1⟩

/-! ## Divider -/

theorem div_bits_step_bound :
    ∀ i : clk_index,
      (en7523_base_clks.get i).div_bits ≤ 5 ∧ (en7523_base_clks.get i).div_step ≤ 2 := by
  decide

theorem divider_product_le (base : iomem) (i : clk_index) :
    (reg_field (readl base (divider_register (en7523_base_clks.get i)))
        (en7523_base_clks.get i).div_shift (en7523_base_clks.get i).div_bits + 1)
      * (en7523_base_clks.get i).div_step ≤ 64 := by
  obtain ⟨hb, hs⟩ := div_bits_step_bound i
  have h1 : reg_field (readl base (divider_register (en7523_base_clks.get i)))
      (en7523_base_clks.get i).div_shift (en7523_base_clks.get i).div_bits
      < 2 ^ (en7523_base_clks.get i).div_bits := by
    rw [reg_field_eq]
    exact Nat.mod_lt _ (Nat.two_pow_pos _)
  have h2 : 2 ^ (en7523_base_clks.get i).div_bits ≤ 2 ^ 5 :=
    Nat.pow_le_pow_right (by norm_num) hb
  calc _ ≤ 32 * 2 := Nat.mul_le_mul (by omega) hs
    _ = 64 := by norm_num

theorem en7523_get_div_eq (base : iomem) (i : clk_index) :
    en7523_get_div base i =
      (if (en7523_base_clks.get i).div_bits = 0 then 1
       else if reg_field (readl base (divider_register (en7523_base_clks.get i)))
            (en7523_base_clks.get i).div_shift (en7523_base_clks.get i).div_bits = 0
          ∧ (en7523_base_clks.get i).div_val0 ≠ 0 then (en7523_base_clks.get i).div_val0
       else (reg_field (readl base (divider_register (en7523_base_clks.get i)))
            (en7523_base_clks.get i).div_shift (en7523_base_clks.get i).div_bits + 1)
          * (en7523_base_clks.get i).div_step) := by
  have hlt := lt_of_le_of_lt (divider_product_le base i) (by norm_num : 64 < 2 ^ 32)
  have hmod := Nat.mod_eq_of_lt hlt
  simp only [reg_field, divider_register] at hmod
  simp only [en7523_get_div, reg_field, divider_register, Nat.one_shiftLeft, U32_MOD, hmod]

theorem div_step_pos :
    ∀ i : clk_index,
      (en7523_base_clks.get i).div_bits ≠ 0 → 0 < (en7523_base_clks.get i).div_step := by
  decide

theorem en7523_get_div_pos (base : iomem) (i : clk_index) : 0 < en7523_get_div base i := by
  rw [en7523_get_div_eq]
  split_ifs with h1 h2
  · norm_num
  · exact Nat.pos_of_ne_zero h2.2
  · exact Nat.mul_pos (Nat.succ_pos _) (div_step_pos i h1)

/-- C2: for every table entry and every register content, `en7523_get_div`
returns 1 when `div_bits == 0`; otherwise, `raw` being the field
`(r >> div_shift) & (2 ^ div_bits - 1)` of the divider register, it returns
`div_val0` when `raw == 0` and `div_val0 != 0`, and `(raw + 1) * div_step`
in every other case; that product is below `2 ^ 32`, so nothing wraps. -/
theorem en7523_get_div_value (base : iomem) (i : clk_index) :
    en7523_get_div base i =
      (if (en7523_base_clks.get i).div_bits = 0 then 1
       else if reg_field (readl base (divider_register (en7523_base_clks.get i)))
            (en7523_base_clks.get i).div_shift (en7523_base_clks.get i).div_bits = 0
          ∧ (en7523_base_clks.get i).div_val0 ≠ 0 then (en7523_base_clks.get i).div_val0
       else (reg_field (readl base (divider_register (en7523_base_clks.get i)))
            (en7523_base_clks.get i).div_shift (en7523_base_clks.get i).div_bits + 1)
          * (en7523_base_clks.get i).div_step) ∧
    (reg_field (readl base (divider_register (en7523_base_clks.get i)))
        (en7523_base_clks.get i).div_shift (en7523_base_clks.get i).div_bits + 1)
      * (en7523_base_clks.get i).div_step < 2 ^ 32 := by
  exact ⟨en7523_get_div_eq base i,
    lt_of_le_of_lt (divider_product_le base i) (by norm_num : 64 < 2 ^ 32)⟩

/-! ## Rates handed to the fixed-rate registration -/

theorem register_step_calls (env : clk_services) (base : iomem) (s : register_state)
    (i : clk_index) :
    (en7523_register_clocks_step env base s i).calls = s.calls ++ [resolved_call base i] := by
  simp only [en7523_register_clocks_step, resolved_call]
  split <;> rfl

theorem register_loop_calls (env : clk_services) (base : iomem) (l : List clk_index) :
    ∀ s : register_state,
      (l.foldl (en7523_register_clocks_step env base) s).calls
        = s.calls ++ l.map (resolved_call base) := by
  induction l with
  | nil => intro s; simp
  | cons i l ih =>
    intro s
    rw [List.foldl_cons, ih, register_step_calls, List.map_cons, List.append_assoc,
      List.singleton_append]

theorem register_clocks_calls (env : clk_services) (clk_data : clk_onecell_data)
    (base : iomem) (np_base : mmio) :
    (en7523_register_clocks env clk_data base np_base).calls
      = (List.finRange (ARRAY_SIZE en7523_base_clks)).map (resolved_call base) := by
  unfold en7523_register_clocks
  simp only [register_loop_calls, List.nil_append]

/-- C3: for every table entry and every register content, the rate that
`en7523_register_clocks` passes to `clk_register_fixed_rate` is the floor of
`en7523_get_base_rate` over `en7523_get_div` (a divisor that is never zero),
one call per entry in table order.  GSW with bit 8 and bits 0..2 of register
0x1b4 clear is registered at 400000000; SLIC with bit 0 of register 0x1c8 set
and bits 24..28 of register 0x1c4 clear is registered at 156250. -/
theorem en7523_register_clocks_rate (env : clk_services) (clk_data : clk_onecell_data)
    (base : iomem) (np_base : mmio) :
    (en7523_register_clocks env clk_data base np_base).calls
      = (List.finRange (ARRAY_SIZE en7523_base_clks)).map
          (fun i => { name := (en7523_base_clks.get i).name,
                      rate := en7523_get_base_rate base i / en7523_get_div base i }) ∧
    (∀ i : clk_index, 0 < en7523_get_div base i) ∧
    (reg_field (readl base 0x1b4) 8 1 = 0 → reg_field (readl base 0x1b4) 0 3 = 0 →
      (en7523_register_clocks env clk_data base np_base).calls[0]?
        = some { name := "gsw", rate := 400000000 }) ∧
    (reg_field (readl base 0x1c8) 0 1 = 1 → reg_field (readl base 0x1c4) 24 5 = 0 →
      (en7523_register_clocks env clk_data base np_base).calls[3]?
        = some { name := "slic", rate := 156250 }) := by
  refine ⟨register_clocks_calls env clk_data base np_base, en7523_get_div_pos base, ?_, ?_⟩
  · intro hsel hdiv
    have hsel2 : reg_field (readl base (en7523_base_clks.get gsw_index).base_reg)
        (en7523_base_clks.get gsw_index).base_shift
        (en7523_base_clks.get gsw_index).base_bits = 0 := hsel
    have hdiv2 : reg_field (readl base (divider_register (en7523_base_clks.get gsw_index)))
        (en7523_base_clks.get gsw_index).div_shift
        (en7523_base_clks.get gsw_index).div_bits = 0 := hdiv
    have hb : en7523_get_base_rate base gsw_index = 400000000 := by
      rw [en7523_get_base_rate_eq, hsel2]; rfl
    have hd : en7523_get_div base gsw_index = 1 := by
      rw [en7523_get_div_eq, hdiv2]; rfl
    have hc : resolved_call base gsw_index = { name := "gsw", rate := 400000000 } := by
      unfold resolved_call; rw [hb, hd]; rfl
    rw [register_clocks_calls, ← hc]; rfl
  · intro hsel hdiv
    have hsel2 : reg_field (readl base (en7523_base_clks.get slic_index).base_reg)
        (en7523_base_clks.get slic_index).base_shift
        (en7523_base_clks.get slic_index).base_bits = 1 := hsel
    have hdiv2 : reg_field (readl base (divider_register (en7523_base_clks.get slic_index)))
        (en7523_base_clks.get slic_index).div_shift
        (en7523_base_clks.get slic_index).div_bits = 0 := hdiv
    have hb : en7523_get_base_rate base slic_index = 3125000 := by
      rw [en7523_get_base_rate_eq, hsel2]; rfl
    have hd : en7523_get_div base slic_index = 20 := by
      rw [en7523_get_div_eq, hdiv2]; rfl
    have hc : resolved_call base slic_index = { name := "slic", rate := 156250 } := by
      unfold resolved_call; rw [hb, hd]; rfl
    rw [register_clocks_calls, ← hc]; rfl

/-- Witness of C3: GSW on an all-zero register block, SLIC on a block whose
register 0x1c8 holds 1. -/
theorem en7523_register_clocks_rate_witness :
    (en7523_register_clocks failing_services empty_clk_data (fun _ => 0)
        (uniform_window 0)).calls[0]? = some { name := "gsw", rate := 400000000 } ∧
    (en7523_register_clocks granting_services empty_clk_data slic_block
        (uniform_window 0)).calls[3]? = some { name := "slic", rate := 156250 } :=
  ⟨(en7523_register_clocks_rate failing_services empty_clk_data (fun _ => 0)
      (uniform_window 0)).2.2.1 (by decide) (by decide),
   (en7523_register_clocks_rate granting_services empty_clk_data slic_block
      (uniform_window 0)).2.2.2 (by decide) (by decide)⟩

/-! ## The PCIe gate -/

/-- The content of PCI-control after the first two writes of the enable
sequence, from its initial content `p`. -/
theorem refclk_stage_lt {p : Nat} (hp : p < 2 ^ 32) :
    (p &&& not32 PERST_MASK) ||| REG_PCI_CONTROL_REFCLK < 2 ^ 32 :=
  Nat.or_lt_two_pow (and_lt_u32 _ hp) refclk_lt

theorem pci_enable_log (cg : en_clk_gate) :
    (en7523_pci_enable cg).1.base.log = cg.base.log ++
      pci_enable_sequence (readl cg.base.regs REG_PCI_CONTROL)
        (readl cg.base.regs REG_RESET_CONTROL)
        ((readl cg.base.regs REG_PCI_CONTROL &&& not32 PERST_MASK)
          ||| REG_PCI_CONTROL_REFCLK) := by
  have h := mod_u32_of_lt (refclk_stage_lt (readl_lt cg.base.regs REG_PCI_CONTROL))
  simp only [readl, REG_PCI_CONTROL, REG_RESET_CONTROL] at h
  simp [en7523_pci_enable, writel, mdelay, readl, REG_PCI_CONTROL, REG_RESET_CONTROL,
    perst_mask_eq, reset_mask_eq, pci_enable_sequence, h, or_perst]

theorem pci_enable_final_control {p : Nat} (hp : p < 2 ^ 32) :
    ((p &&& not32 PERST_MASK) ||| REG_PCI_CONTROL_REFCLK) ||| PERST_MASK
      = p ||| REG_PCI_CONTROL_REFCLK ||| REG_PCI_CONTROL_PERSTOUT
          ||| REG_PCI_CONTROL_PERSTOUT1 := by
  rw [or_perst, lor_swap_right, and_not32_or _ _ hp, lor_swap_right]

theorem pci_enable_regs (cg : en_clk_gate) (off : Nat) :
    (en7523_pci_enable cg).1.base.regs off =
      if off = REG_PCI_CONTROL then
        readl cg.base.regs REG_PCI_CONTROL ||| REG_PCI_CONTROL_REFCLK
          ||| REG_PCI_CONTROL_PERSTOUT ||| REG_PCI_CONTROL_PERSTOUT1
      else if off = REG_RESET_CONTROL then
        readl cg.base.regs REG_RESET_CONTROL &&& not32 PCIE_RESET_MASK
      else cg.base.regs off := by
  have hp := readl_lt cg.base.regs REG_PCI_CONTROL
  have hr := readl_lt cg.base.regs REG_RESET_CONTROL
  have h1 := mod_u32_of_lt (refclk_stage_lt hp)
  have h2 := pci_enable_final_control hp
  have h3 : (readl cg.base.regs REG_PCI_CONTROL ||| REG_PCI_CONTROL_REFCLK
      ||| REG_PCI_CONTROL_PERSTOUT ||| REG_PCI_CONTROL_PERSTOUT1) % U32_MOD
      = readl cg.base.regs REG_PCI_CONTROL ||| REG_PCI_CONTROL_REFCLK
      ||| REG_PCI_CONTROL_PERSTOUT ||| REG_PCI_CONTROL_PERSTOUT1 := by
    apply mod_u32_of_lt
    rw [or_perst]
    exact Nat.or_lt_two_pow (Nat.or_lt_two_pow hp refclk_lt) perst_mask_lt
  have h4 := mod_u32_of_lt (and_lt_u32 (not32 PCIE_RESET_MASK) hr)
  simp only [readl, REG_PCI_CONTROL, REG_RESET_CONTROL] at h1 h2 h3 h4
  simp only [en7523_pci_enable, writel, mdelay, readl, REG_PCI_CONTROL, REG_RESET_CONTROL,
    perst_mask_eq, reset_mask_eq]
  by_cases ha : off = 0x88
  · subst ha
    simp [h1, h2, h3]
  · by_cases hb : off = 0x834
    · subst hb
      simp [h4]
    · simp [ha, hb]

theorem pci_enable_reread (regs : iomem) (p' : Nat) :
    readl (replay ((pci_enable_sequence (readl regs REG_PCI_CONTROL)
        (readl regs REG_RESET_CONTROL) p').take 10) regs) REG_PCI_CONTROL
      = (readl regs REG_PCI_CONTROL &&& not32 PERST_MASK) ||| REG_PCI_CONTROL_REFCLK := by
  have h := mod_u32_of_lt (refclk_stage_lt (readl_lt regs REG_PCI_CONTROL))
  simp only [readl, REG_PCI_CONTROL] at h
  simp [pci_enable_sequence, replay, readl, REG_PCI_CONTROL, h]

/-- C5: for every initial content `p` of PCI-control (0x88) and `r` of
reset-control (0x834), on registers that read back the last value written,
`en7523_pci_enable` appends to the log exactly the fourteen mandated steps, in
order, and returns 0: clear both PERST outputs, wait 1; set REFCLK, wait 1;
clear the three PCIe reset bits, wait 1; set them, wait 100; clear them,
wait 5; read PCI-control again (`p'`), clear both PERST outputs, wait 1;
set both, wait 250.  No other write occurs. -/
theorem en7523_pci_enable_trace (cg : en_clk_gate) (p r p' : Nat)
    (hp : p = readl cg.base.regs REG_PCI_CONTROL)
    (hr : r = readl cg.base.regs REG_RESET_CONTROL)
    (hp' : p' = readl (replay ((pci_enable_sequence p r p').take 10) cg.base.regs)
      REG_PCI_CONTROL) :
    (en7523_pci_enable cg).1.base.log = cg.base.log ++ pci_enable_sequence p r p' ∧
    (en7523_pci_enable cg).2 = 0 ∧
    REG_PCI_CONTROL = 0x88 ∧ REG_RESET_CONTROL = 0x834 ∧
    PERST_MASK = 2 ^ 29 ||| 2 ^ 26 ∧ REG_PCI_CONTROL_REFCLK = 2 ^ 22 ∧
    PCIE_RESET_MASK = 2 ^ 29 ||| 2 ^ 27 ||| 2 ^ 26 := by
  subst hp hr
  rw [pci_enable_reread] at hp'
  subst hp'
  exact ⟨pci_enable_log cg, rfl, rfl, rfl, by decide, by decide, by decide⟩

/-- Witness of C5: the enable sequence on a window of all-zero registers. -/
theorem en7523_pci_enable_trace_witness :
    (en7523_pci_enable { base := uniform_window 0 }).1.base.log
      = (uniform_window 0).log ++ pci_enable_sequence 0 0 0x400000 ∧
    (en7523_pci_enable { base := uniform_window 0 }).2 = 0 :=
  ⟨(en7523_pci_enable_trace { base := uniform_window 0 } 0 0 0x400000
      (by decide) (by decide) (by decide)).1,
   (en7523_pci_enable_trace { base := uniform_window 0 } 0 0 0x400000
      (by decide) (by decide) (by decide)).2.1⟩

/-- C6: for every initial content `p` of PCI-control and `r` of reset-control,
after `en7523_pci_enable` the gate reports enabled, PCI-control holds
`p | REFCLK | PERSTOUT | PERSTOUT1`, reset-control holds `r` with bits 29, 27
and 26 cleared and every other bit as before, and every other register of the
window is unchanged. -/
theorem en7523_pci_enable_state (cg : en_clk_gate) (p r : Nat)
    (hp : p = readl cg.base.regs REG_PCI_CONTROL)
    (hr : r = readl cg.base.regs REG_RESET_CONTROL) :
    en7523_pci_is_enabled (en7523_pci_enable cg).1 = 1 ∧
    (en7523_pci_enable cg).1.base.regs REG_PCI_CONTROL
      = p ||| REG_PCI_CONTROL_REFCLK ||| REG_PCI_CONTROL_PERSTOUT
          ||| REG_PCI_CONTROL_PERSTOUT1 ∧
    (∀ i, ((en7523_pci_enable cg).1.base.regs REG_RESET_CONTROL).testBit i
      = (r.testBit i && !decide (i = 29 ∨ i = 27 ∨ i = 26))) ∧
    (∀ off, off ≠ REG_PCI_CONTROL → off ≠ REG_RESET_CONTROL →
      (en7523_pci_enable cg).1.base.regs off = cg.base.regs off) := by
  subst hp hr
  refine ⟨?_, ?_, ?_, ?_⟩
  · have hbit : (readl (en7523_pci_enable cg).1.base.regs REG_PCI_CONTROL
        &&& REG_PCI_CONTROL_REFCLK).testBit 22 = true := by
      rw [readl, pci_enable_regs, if_pos rfl]
      simp [testBit_mod_u32, refclk_testBit]
    unfold en7523_pci_is_enabled
    rw [if_pos (ne_zero_of_testBit hbit)]
  · rw [pci_enable_regs, if_pos rfl]
  · intro i
    rw [pci_enable_regs, if_neg (by decide), if_pos rfl, Nat.testBit_and, testBit_not32,
      reset_mask_testBit]
    by_cases h : i < 32
    · simp [h]
    · rw [testBit_u32_high (readl_lt _ _) (Nat.le_of_not_lt h)]
      simp
  · intro off h1 h2
    rw [pci_enable_regs, if_neg h1, if_neg h2]

/-- Witness of C6: the enable sequence on a window whose registers are all
ones. -/
theorem en7523_pci_enable_state_witness :
    en7523_pci_is_enabled (en7523_pci_enable { base := uniform_window 0xffffffff }).1 = 1 ∧
    (en7523_pci_enable { base := uniform_window 0xffffffff }).1.base.regs REG_PCI_CONTROL
      = 0xffffffff ||| REG_PCI_CONTROL_REFCLK ||| REG_PCI_CONTROL_PERSTOUT
          ||| REG_PCI_CONTROL_PERSTOUT1 :=
  ⟨(en7523_pci_enable_state { base := uniform_window 0xffffffff } 0xffffffff 0xffffffff
      (by decide) (by decide)).1,
   (en7523_pci_enable_state { base := uniform_window 0xffffffff } 0xffffffff 0xffffffff
      (by decide) (by decide)).2.1⟩

theorem pci_disable_regs (cg : en_clk_gate) (off : Nat) :
    (en7523_pci_disable cg).base.regs off =
      if off = REG_PCI_CONTROL then
        readl cg.base.regs REG_PCI_CONTROL &&& not32 REG_PCI_CONTROL_REFCLK
      else cg.base.regs off := by
  have h := mod_u32_of_lt (and_lt_u32 (not32 REG_PCI_CONTROL_REFCLK)
    (readl_lt cg.base.regs REG_PCI_CONTROL))
  simp only [en7523_pci_disable, writel, h]

theorem pci_disable_testBit (cg : en_clk_gate) (i : Nat) :
    (readl (en7523_pci_disable cg).base.regs REG_PCI_CONTROL).testBit i
      = ((readl cg.base.regs REG_PCI_CONTROL).testBit i && !decide (i = 22)) := by
  rw [readl, pci_disable_regs, if_pos rfl, testBit_mod_u32, Nat.testBit_and, testBit_not32,
    refclk_testBit]
  by_cases h : i < 32
  · simp [h]
  · rw [testBit_u32_high (readl_lt _ _) (Nat.le_of_not_lt h)]
    simp

theorem pci_disable_not_enabled (cg : en_clk_gate) :
    en7523_pci_is_enabled (en7523_pci_disable cg) = 0 := by
  have hz : readl (en7523_pci_disable cg).base.regs REG_PCI_CONTROL
      &&& REG_PCI_CONTROL_REFCLK = 0 := by
    apply Nat.eq_of_testBit_eq
    intro i
    rw [Nat.testBit_and, pci_disable_testBit, refclk_testBit, Nat.zero_testBit]
    by_cases h : i = 22 <;> simp [h]
  unfold en7523_pci_is_enabled
  rw [if_neg (not_not.mpr hz)]

/-- C7: for every register-window content, after `en7523_pci_disable` the gate
reports disabled; PCI-control (0x88) has bit 22 cleared and every other bit as
before; every other register of the window, reset-control (0x834) among them,
is unchanged; and the routine performs exactly one write, to 0x88, and no
delay. -/
theorem en7523_pci_disable_effect (cg : en_clk_gate) :
    en7523_pci_is_enabled (en7523_pci_disable cg) = 0 ∧
    (∀ i, (readl (en7523_pci_disable cg).base.regs REG_PCI_CONTROL).testBit i
      = ((readl cg.base.regs REG_PCI_CONTROL).testBit i && !decide (i = 22))) ∧
    (∀ off, off ≠ REG_PCI_CONTROL →
      (en7523_pci_disable cg).base.regs off = cg.base.regs off) ∧
    (en7523_pci_disable cg).base.regs REG_RESET_CONTROL = cg.base.regs REG_RESET_CONTROL ∧
    (en7523_pci_disable cg).base.log = cg.base.log ++
      [io_event.writel (readl cg.base.regs REG_PCI_CONTROL &&& not32 REG_PCI_CONTROL_REFCLK)
        0x88] := by
  refine ⟨pci_disable_not_enabled cg, pci_disable_testBit cg, ?_, ?_, rfl⟩
  · intro off h
    rw [pci_disable_regs, if_neg h]
  · rw [pci_disable_regs, if_neg (by decide)]

theorem after_dir_writes_dir (ctrl : econet_gpio_ctrl) (gpio dir output : Nat) :
    (after_dir_writes ctrl gpio dir output).regs (gpio_reg.dir (gpio / 16)) = dir % U32_MOD := by
  simp [after_dir_writes, iowrite32]

theorem after_dir_writes_output (ctrl : econet_gpio_ctrl) (gpio dir output : Nat) :
    (after_dir_writes ctrl gpio dir output).regs gpio_reg.output = output % U32_MOD := by
  simp [after_dir_writes, iowrite32]

theorem after_dir_writes_log (ctrl : econet_gpio_ctrl) (gpio dir output : Nat) :
    (after_dir_writes ctrl gpio dir output).log = ctrl.log ++
      [gpio_event.iowrite32 dir (gpio_reg.dir (gpio / 16)),
       gpio_event.iowrite32 output gpio_reg.output] := by
  simp [after_dir_writes, iowrite32]

theorem dir_bit_lt (g : Nat) : (g % 16) * 2 < 32 := by omega

theorem econet_dir_set_out (gc : gpio_chip) (ctrl : econet_gpio_ctrl) (g : Nat)
    (v out : Int) (h : out ≠ 0) :
    (econet_dir_set gc ctrl g v out).1 =
      { regs := gc.set g v (after_dir_writes ctrl g
          (ioread32 ctrl (gpio_reg.dir (g / 16)) ||| BIT ((g % 16) * 2))
          (ioread32 ctrl gpio_reg.output ||| BIT g)).regs,
        log := (after_dir_writes ctrl g
          (ioread32 ctrl (gpio_reg.dir (g / 16)) ||| BIT ((g % 16) * 2))
          (ioread32 ctrl gpio_reg.output ||| BIT g)).log ++ [gpio_event.set g v] } := by
  simp only [econet_dir_set, after_dir_writes, if_pos h]

theorem econet_dir_set_in (gc : gpio_chip) (ctrl : econet_gpio_ctrl) (g : Nat)
    (v out : Int) (h : out = 0) :
    (econet_dir_set gc ctrl g v out).1 =
      after_dir_writes ctrl g
        (ioread32 ctrl (gpio_reg.dir (g / 16)) &&& not32 (BIT ((g % 16) * 2)))
        (ioread32 ctrl gpio_reg.output &&& not32 (BIT g)) := by
  simp [econet_dir_set, after_dir_writes, h]

/-- C9: for every line `g` in 0..31, every value `v` and every register
content, `econet_dir_set(g, v, out)` returns 0 and: when `out != 0` it writes
the direction register `dir[g / 16]` with bit `(g mod 16) * 2` set and the
output-enable register with bit `g` set, and afterwards calls `gc->set` exactly
once, with `(g, v)`; when `out == 0` it writes both registers with those bits
cleared and does not call `gc->set`.  `econet_dir_out` and `econet_dir_in` are
the two instances. -/
theorem econet_dir_set_effect (gc : gpio_chip) (ctrl : econet_gpio_ctrl) (g : Nat)
    (hg : g < 32) (v out : Int) :
    (econet_dir_set gc ctrl g v out).2 = 0 ∧
    (out ≠ 0 → ∃ w : econet_gpio_ctrl,
      w = after_dir_writes ctrl g
        (ioread32 ctrl (gpio_reg.dir (g / 16)) ||| BIT ((g % 16) * 2))
        (ioread32 ctrl gpio_reg.output ||| BIT g) ∧
      (w.regs (gpio_reg.dir (g / 16))).testBit ((g % 16) * 2) = true ∧
      (w.regs gpio_reg.output).testBit g = true ∧
      (econet_dir_set gc ctrl g v out).1.regs = gc.set g v w.regs ∧
      (econet_dir_set gc ctrl g v out).1.log = ctrl.log ++
        [gpio_event.iowrite32 (ioread32 ctrl (gpio_reg.dir (g / 16)) ||| BIT ((g % 16) * 2))
            (gpio_reg.dir (g / 16)),
         gpio_event.iowrite32 (ioread32 ctrl gpio_reg.output ||| BIT g) gpio_reg.output,
         gpio_event.set g v]) ∧
    (out = 0 →
      ((econet_dir_set gc ctrl g v out).1.regs (gpio_reg.dir (g / 16))).testBit
        ((g % 16) * 2) = false ∧
      ((econet_dir_set gc ctrl g v out).1.regs gpio_reg.output).testBit g = false ∧
      (econet_dir_set gc ctrl g v out).1.log = ctrl.log ++
        [gpio_event.iowrite32
            (ioread32 ctrl (gpio_reg.dir (g / 16)) &&& not32 (BIT ((g % 16) * 2)))
            (gpio_reg.dir (g / 16)),
         gpio_event.iowrite32 (ioread32 ctrl gpio_reg.output &&& not32 (BIT g))
            gpio_reg.output]) ∧
    econet_dir_out gc ctrl g v = econet_dir_set gc ctrl g v 1 ∧
    econet_dir_in gc ctrl g = econet_dir_set gc ctrl g 0 0 := by
  refine ⟨rfl, ?_, ?_, rfl, rfl⟩
  · intro h
    refine ⟨_, rfl, ?_, ?_, ?_, ?_⟩
    · rw [after_dir_writes_dir, testBit_mod_u32, Nat.testBit_or, testBit_BIT]
      simp [dir_bit_lt g]
    · rw [after_dir_writes_output, testBit_mod_u32, Nat.testBit_or, testBit_BIT]
      simp [hg]
    · rw [econet_dir_set_out gc ctrl g v out h]
    · rw [econet_dir_set_out gc ctrl g v out h]
      simp only [after_dir_writes_log, List.append_assoc, List.cons_append, List.nil_append]
  · intro h
    rw [econet_dir_set_in gc ctrl g v out h]
    refine ⟨?_, ?_, after_dir_writes_log _ _ _ _⟩
    · rw [after_dir_writes_dir, testBit_mod_u32, Nat.testBit_and, testBit_not32, testBit_BIT]
      simp
    · rw [after_dir_writes_output, testBit_mod_u32, Nat.testBit_and, testBit_not32,
        testBit_BIT]
      simp

/-- Witness of C9: `econet_dir_out(17, 1)` on all-zero registers writes 4 (bit
2) to `dir[1]` and 0x20000 (bit 17) to the output-enable register, then calls
`gc->set(17, 1)`. -/
theorem econet_dir_set_effect_witness :
    (econet_dir_out data_only_chip zero_gpio 17 1).1.log =
      [gpio_event.iowrite32 4 (gpio_reg.dir 1),
       gpio_event.iowrite32 0x20000 gpio_reg.output,
       gpio_event.set 17 1] :=
  match (econet_dir_set_effect data_only_chip zero_gpio 17 (by decide) 1 1).2.1 (by decide) with
  | ⟨_, _, _, _, _, hlog⟩ => hlog

theorem set_bit_read_back (x m : Nat) (hm : m < 32) :
    ((x ||| BIT m) % U32_MOD % U32_MOD) &&& BIT m = 2 ^ m := by
  apply Nat.eq_of_testBit_eq
  intro i
  rw [Nat.testBit_and, testBit_mod_u32, testBit_mod_u32, Nat.testBit_or, testBit_BIT,
    Nat.testBit_two_pow]
  by_cases h : m = i
  · subst h
    simp [hm]
  · simp [h]

theorem cleared_bit_read_back (x m : Nat) :
    ((x &&& not32 (BIT m)) % U32_MOD % U32_MOD) &&& BIT m = 0 := by
  apply Nat.eq_of_testBit_eq
  intro i
  rw [Nat.testBit_and, testBit_mod_u32, testBit_mod_u32, Nat.testBit_and, testBit_not32,
    testBit_BIT, Nat.zero_testBit]
  by_cases h : m = i <;> simp [h]

/-- C10: for every line `g` in 0..31 and every register content, with a
value-set operation that leaves the direction registers alone:
`econet_get_dir(g)` after `econet_dir_out(g, v)` returns `2 ^ ((g mod 16) * 2)`,
which is not zero; `econet_get_dir(g)` after `econet_dir_in(g)` returns 0;
`econet_get_dir` leaves the state (registers and log) as it found it, and its
result depends on the content of `dir[g / 16]` only. -/
theorem econet_get_dir_after_set (gc : gpio_chip)
    (hset : ∀ gpio val regs n, gc.set gpio val regs (gpio_reg.dir n) = regs (gpio_reg.dir n))
    (ctrl : econet_gpio_ctrl) (g : Nat) (_hg : g < 32) (v : Int) :
    (econet_get_dir (econet_dir_out gc ctrl g v).1 g).2 = 2 ^ ((g % 16) * 2) ∧
    (econet_get_dir (econet_dir_out gc ctrl g v).1 g).2 ≠ 0 ∧
    (econet_get_dir (econet_dir_in gc ctrl g).1 g).2 = 0 ∧
    (∀ c : econet_gpio_ctrl, (econet_get_dir c g).1 = c) ∧
    (∀ c₁ c₂ : econet_gpio_ctrl,
      c₁.regs (gpio_reg.dir (g / 16)) = c₂.regs (gpio_reg.dir (g / 16)) →
      (econet_get_dir c₁ g).2 = (econet_get_dir c₂ g).2) := by
  have hout : (econet_get_dir (econet_dir_out gc ctrl g v).1 g).2 = 2 ^ ((g % 16) * 2) := by
    unfold econet_dir_out
    rw [econet_dir_set_out gc ctrl g v 1 (by decide)]
    simp only [econet_get_dir, ioread32, hset, after_dir_writes_dir]
    exact set_bit_read_back _ _ (dir_bit_lt g)
  refine ⟨hout, ?_, ?_, fun _ => rfl, ?_⟩
  · rw [hout]
    exact Nat.pos_iff_ne_zero.mp (Nat.two_pow_pos _)
  · unfold econet_dir_in
    rw [econet_dir_set_in gc ctrl g 0 0 rfl]
    simp only [econet_get_dir, ioread32, after_dir_writes_dir]
    exact cleared_bit_read_back _ _
  · intro c₁ c₂ h
    simp only [econet_get_dir, ioread32, h]

/-- Witness of C10: line 17 on all-zero registers, with a value-set operation
that writes the data register only. -/
theorem econet_get_dir_after_set_witness :
    (econet_get_dir (econet_dir_out data_only_chip zero_gpio 17 1).1 17).2 = 2 ^ ((17 % 16) * 2) ∧
    (econet_get_dir (econet_dir_in data_only_chip zero_gpio 17).1 17).2 = 0 :=
  ⟨(econet_get_dir_after_set data_only_chip (fun _ _ _ _ => rfl) zero_gpio 17
      (by decide) 1).1,
   (econet_get_dir_after_set data_only_chip (fun _ _ _ _ => rfl) zero_gpio 17
      (by decide) 1).2.2.1⟩

/-! ## Range of the divider -/

theorem div_val0_le : ∀ i : clk_index, (en7523_base_clks.get i).div_val0 ≤ 64 := by
  decide

theorem en7523_get_div_le (base : iomem) (i : clk_index) : en7523_get_div base i ≤ 64 := by
  rw [en7523_get_div_eq]
  split_ifs
  · norm_num
  · exact div_val0_le i
  · exact divider_product_le base i

/-- C16: for every table entry and every register content, `en7523_get_div`
returns a value between 1 and 64, so the division in `en7523_register_clocks`
never divides by zero, and the product `(raw + 1) * div_step` stays below
`2 ^ 32`: the value returned is the product itself whenever the product is
what the code returns. -/
theorem en7523_get_div_range (base : iomem) (i : clk_index) :
    1 ≤ en7523_get_div base i ∧ en7523_get_div base i ≤ 64 ∧
    en7523_get_div base i ≠ 0 ∧
    (reg_field (readl base (divider_register (en7523_base_clks.get i)))
        (en7523_base_clks.get i).div_shift (en7523_base_clks.get i).div_bits + 1)
      * (en7523_base_clks.get i).div_step < 2 ^ 32 ∧
    ((reg_field (readl base (divider_register (en7523_base_clks.get i)))
        (en7523_base_clks.get i).div_shift (en7523_base_clks.get i).div_bits + 1)
      * (en7523_base_clks.get i).div_step) % U32_MOD
      = (reg_field (readl base (divider_register (en7523_base_clks.get i)))
        (en7523_base_clks.get i).div_shift (en7523_base_clks.get i).div_bits + 1)
      * (en7523_base_clks.get i).div_step := by
  have hlt := lt_of_le_of_lt (divider_product_le base i) (by norm_num : 64 < 2 ^ 32)
  exact ⟨en7523_get_div_pos base i, en7523_get_div_le base i,
    Nat.pos_iff_ne_zero.mp (en7523_get_div_pos base i), hlt, mod_u32_of_lt hlt⟩

/-! ## Total delay of the enable sequence -/

theorem delay_total_append (a b : List io_event) :
    delay_total (a ++ b) = delay_total a + delay_total b := by
  induction a with
  | nil => simp [delay_total]
  | cons e a ih =>
    cases e with
    | writel val off => simpa [delay_total] using ih
    | mdelay n => simp [delay_total, ih, Nat.add_assoc]

theorem delay_total_sequence (p r p' : Nat) :
    delay_total (pci_enable_sequence p r p') = 359 := by
  simp [pci_enable_sequence, delay_total]

/-- C15, as the code has it: the arguments of the `mdelay` calls of one
execution of `en7523_pci_enable` sum to 359 (1 + 1 + 1 + 100 + 5 + 1 + 250),
for every register content. -/
theorem en7523_pci_enable_delay_total (cg : en_clk_gate) :
    delay_total (en7523_pci_enable cg).1.base.log = delay_total cg.base.log + 359 := by
  rw [pci_enable_log, delay_total_append, delay_total_sequence]

/-- C15, as the specification states it, fails: on a fresh window of all-zero
registers the waits of `en7523_pci_enable` do not sum to 357. -/
theorem en7523_pci_enable_delay_not_357 :
    delay_total (en7523_pci_enable { base := uniform_window 0 }).1.base.log ≠ 357 := by
  decide

/-! ## What the resolved rate depends on -/

theorem reg_field_testBit (r s b j : Nat) :
    (reg_field r s b).testBit j = (r.testBit (s + j) && decide (j < b)) := by
  unfold reg_field
  rw [Nat.testBit_and, Nat.testBit_shiftRight, Nat.testBit_two_pow_sub_one]

theorem reg_field_congr {r r' s b : Nat}
    (h : ∀ k, s ≤ k → k < s + b → r.testBit k = r'.testBit k) :
    reg_field r s b = reg_field r' s b := by
  apply Nat.eq_of_testBit_eq
  intro j
  rw [reg_field_testBit, reg_field_testBit]
  by_cases hj : j < b
  · rw [h (s + j) (Nat.le_add_right s j) (by omega)]
  · simp [hj]

/-- The rate `en7523_register_clocks` resolves for table index `i`. -/
theorem resolved_rate_eq (base : iomem) (i : clk_index) :
    (resolved_call base i).rate = en7523_get_base_rate base i / en7523_get_div base i := rfl

theorem divider_field_matters :
    ∀ i : clk_index, (en7523_base_clks.get i).div_bits ≠ 0 →
      en7523_get_div (fun _ => 0) i
        ≠ en7523_get_div
            (fun off => if off = divider_register (en7523_base_clks.get i)
              then 1 <<< (en7523_base_clks.get i).div_shift else 0) i := by
  decide

/-- C14: for every table entry with a divider field (`div_bits != 0`),
`en7523_get_div` takes the divider from the field `[div_shift, div_shift +
div_bits)` of `div_reg` when `div_reg` is non-zero and of `base_reg`
otherwise: it returns `div_val0` when that field is 0 and `div_val0 != 0`, and
`(field + 1) * div_step` in every other case, and changing that register
alone can change the divider.  The resolved rate depends on the register
block only through the selector field and the divider field: two blocks that
agree on bits `[base_shift, base_shift + base_bits)` of `base_reg` and on bits
`[div_shift, div_shift + div_bits)` of the divider register resolve to the
same divider, base rate and rate. -/
theorem en7523_rate_depends_on_fields (i : clk_index)
    (hdiv : (en7523_base_clks.get i).div_bits ≠ 0) (base : iomem) :
    ((en7523_base_clks.get i).div_reg ≠ 0 →
      en7523_get_div base i =
        if reg_field (readl base (en7523_base_clks.get i).div_reg)
            (en7523_base_clks.get i).div_shift (en7523_base_clks.get i).div_bits = 0
          ∧ (en7523_base_clks.get i).div_val0 ≠ 0 then (en7523_base_clks.get i).div_val0
        else (reg_field (readl base (en7523_base_clks.get i).div_reg)
            (en7523_base_clks.get i).div_shift (en7523_base_clks.get i).div_bits + 1)
          * (en7523_base_clks.get i).div_step) ∧
    ((en7523_base_clks.get i).div_reg = 0 →
      en7523_get_div base i =
        if reg_field (readl base (en7523_base_clks.get i).base_reg)
            (en7523_base_clks.get i).div_shift (en7523_base_clks.get i).div_bits = 0
          ∧ (en7523_base_clks.get i).div_val0 ≠ 0 then (en7523_base_clks.get i).div_val0
        else (reg_field (readl base (en7523_base_clks.get i).base_reg)
            (en7523_base_clks.get i).div_shift (en7523_base_clks.get i).div_bits + 1)
          * (en7523_base_clks.get i).div_step) ∧
    (∃ b₁ b₂ : iomem,
      (∀ off, off ≠ (if (en7523_base_clks.get i).div_reg ≠ 0
          then (en7523_base_clks.get i).div_reg
          else (en7523_base_clks.get i).base_reg) → b₁ off = b₂ off) ∧
      en7523_get_div b₁ i ≠ en7523_get_div b₂ i) ∧
    (∀ base' : iomem,
      (∀ k, (en7523_base_clks.get i).base_shift ≤ k →
        k < (en7523_base_clks.get i).base_shift + (en7523_base_clks.get i).base_bits →
        (readl base (en7523_base_clks.get i).base_reg).testBit k
          = (readl base' (en7523_base_clks.get i).base_reg).testBit k) →
      (∀ k, (en7523_base_clks.get i).div_shift ≤ k →
        k < (en7523_base_clks.get i).div_shift + (en7523_base_clks.get i).div_bits →
        (readl base (if (en7523_base_clks.get i).div_reg ≠ 0
            then (en7523_base_clks.get i).div_reg
            else (en7523_base_clks.get i).base_reg)).testBit k
          = (readl base' (if (en7523_base_clks.get i).div_reg ≠ 0
            then (en7523_base_clks.get i).div_reg
            else (en7523_base_clks.get i).base_reg)).testBit k) →
      en7523_get_div base i = en7523_get_div base' i ∧
      en7523_get_base_rate base i = en7523_get_base_rate base' i ∧
      en7523_get_base_rate base i / en7523_get_div base i
        = en7523_get_base_rate base' i / en7523_get_div base' i) := by
  refine ⟨?_, ?_, ?_, ?_⟩
  · intro hreg
    rw [en7523_get_div_eq, if_neg hdiv]
    unfold divider_register
    rw [if_pos hreg]
  · intro hreg
    rw [en7523_get_div_eq, if_neg hdiv]
    unfold divider_register
    rw [if_neg (not_not.mpr hreg)]
  · refine ⟨fun _ => 0,
      fun off => if off = divider_register (en7523_base_clks.get i)
        then 1 <<< (en7523_base_clks.get i).div_shift else 0, ?_, divider_field_matters i hdiv⟩
    intro off hoff
    have hoff' : off ≠ divider_register (en7523_base_clks.get i) := hoff
    exact (if_neg hoff').symm
  · intro base' hb hd
    have h1 : en7523_get_div base i = en7523_get_div base' i := by
      rw [en7523_get_div_eq, en7523_get_div_eq]
      unfold divider_register
      rw [reg_field_congr hd]
    have h2 : en7523_get_base_rate base i = en7523_get_base_rate base' i := by
      rw [en7523_get_base_rate_eq, en7523_get_base_rate_eq, reg_field_congr hb]
    exact ⟨h1, h2, by rw [h1, h2]⟩

/-- Witness of C14: the SLIC divider is 20 when bits 24..28 of register 0x1c4
hold 0 and 4 when they hold 1, whatever register 0x1c8 holds there; the SLIC
rate is the same on two blocks that share only bit 0 of register 0x1c8 and
bits 24..28 of register 0x1c4; the GSW rate is the same on two blocks that
share only bit 8 and bits 0..2 of register 0x1b4. -/
theorem en7523_rate_depends_on_fields_witness :
    en7523_get_div slic_block slic_index = 20 ∧
    en7523_get_div slic_block_div1 slic_index = 4 ∧
    en7523_get_base_rate slic_block slic_index / en7523_get_div slic_block slic_index
      = en7523_get_base_rate slic_block_noise slic_index
          / en7523_get_div slic_block_noise slic_index ∧
    en7523_get_base_rate (fun _ => 0) gsw_index / en7523_get_div (fun _ => 0) gsw_index
      = en7523_get_base_rate gsw_block_noise gsw_index
          / en7523_get_div gsw_block_noise gsw_index :=
  ⟨((en7523_rate_depends_on_fields slic_index (by decide) slic_block).1 (by decide)).trans
      (by decide),
   ((en7523_rate_depends_on_fields slic_index (by decide) slic_block_div1).1 (by decide)).trans
      (by decide),
   ((en7523_rate_depends_on_fields slic_index (by decide) slic_block).2.2.2 slic_block_noise
      (fun k h1 h2 => by
        have h1' : 0 ≤ k := h1
        have h2' : k < 0 + 1 := h2
        interval_cases k
        decide)
      (fun k h1 h2 => by
        have h1' : 24 ≤ k := h1
        have h2' : k < 24 + 5 := h2
        interval_cases k <;> decide)).2.2,
   ((en7523_rate_depends_on_fields gsw_index (by decide) (fun _ => 0)).2.2.2 gsw_block_noise
      (fun k h1 h2 => by
        have h1' : 8 ≤ k := h1
        have h2' : k < 8 + 1 := h2
        interval_cases k
        decide)
      (fun k h1 h2 => by
        have h1' : 0 ≤ k := h1
        have h2' : k < 0 + 3 := h2
        interval_cases k <;> decide)).2.2⟩

/-! ## When the resolved rate is zero -/

theorem base_rate_table_facts :
    ∀ i : clk_index, ∀ v, v < 4 → v < 2 ^ (en7523_base_clks.get i).base_bits →
      ((if (en7523_base_clks.get i).base_bits = 0 then (en7523_base_clks.get i).base_value
        else if v ≥ (en7523_base_clks.get i).n_base_values then 0
        else (en7523_base_clks.get i).base_values.getD v 0) = 0
          ↔ (i = npu_index ∧ v = 3)) ∧
      (¬ (i = npu_index ∧ v = 3) →
        64 ≤ (if (en7523_base_clks.get i).base_bits = 0 then (en7523_base_clks.get i).base_value
          else if v ≥ (en7523_base_clks.get i).n_base_values then 0
          else (en7523_base_clks.get i).base_values.getD v 0)) := by
  decide

theorem base_bits_le : ∀ i : clk_index, (en7523_base_clks.get i).base_bits ≤ 2 := by
  decide

theorem selector_three_iff (r : Nat) :
    reg_field r 8 2 = 3 ↔ r.testBit 8 = true ∧ r.testBit 9 = true := by
  rw [reg_field_eq, Nat.testBit_to_div_mod, Nat.testBit_to_div_mod]
  simp only [decide_eq_true_eq]
  norm_num
  omega

theorem base_rate_zero_iff (base : iomem) (i : clk_index) :
    (en7523_get_base_rate base i = 0 ↔
      (i = npu_index ∧ reg_field (readl base REG_NPU_CLK_DIV_SEL) 8 2 = 3)) ∧
    (¬ (i = npu_index ∧ reg_field (readl base REG_NPU_CLK_DIV_SEL) 8 2 = 3) →
      64 ≤ en7523_get_base_rate base i) := by
  have hv : reg_field (readl base (en7523_base_clks.get i).base_reg)
      (en7523_base_clks.get i).base_shift (en7523_base_clks.get i).base_bits
      < 2 ^ (en7523_base_clks.get i).base_bits := by
    rw [reg_field_eq]
    exact Nat.mod_lt _ (Nat.two_pow_pos _)
  have h4 : 2 ^ (en7523_base_clks.get i).base_bits ≤ 2 ^ 2 :=
    Nat.pow_le_pow_right (by norm_num) (base_bits_le i)
  have hfacts := base_rate_table_facts i _ (lt_of_lt_of_le hv h4) hv
  rw [← en7523_get_base_rate_eq] at hfacts
  have hnpu : i = npu_index →
      reg_field (readl base (en7523_base_clks.get i).base_reg)
        (en7523_base_clks.get i).base_shift (en7523_base_clks.get i).base_bits
      = reg_field (readl base REG_NPU_CLK_DIV_SEL) 8 2 := by
    intro h
    subst h
    rfl
  have hiff : (i = npu_index ∧ reg_field (readl base (en7523_base_clks.get i).base_reg)
        (en7523_base_clks.get i).base_shift (en7523_base_clks.get i).base_bits = 3)
      ↔ (i = npu_index ∧ reg_field (readl base REG_NPU_CLK_DIV_SEL) 8 2 = 3) := by
    constructor
    · rintro ⟨h1, h2⟩
      exact ⟨h1, by rw [← hnpu h1]; exact h2⟩
    · rintro ⟨h1, h2⟩
      exact ⟨h1, by rw [hnpu h1]; exact h2⟩
  rw [hiff] at hfacts
  exact hfacts

/-- C18: over all table entries and all register contents, the resolved rate
(base rate over divider) is 0 exactly when the entry is NPU and bits 8 and 9
of register 0x1fc are both set (selector value 3); in every other case it is
strictly positive. -/
theorem en7523_rate_zero_iff (base : iomem) (i : clk_index) :
    (en7523_get_base_rate base i / en7523_get_div base i = 0 ↔
      (i = npu_index ∧ (readl base 0x1fc).testBit 8 = true
        ∧ (readl base 0x1fc).testBit 9 = true)) ∧
    (¬ (i = npu_index ∧ (readl base 0x1fc).testBit 8 = true
        ∧ (readl base 0x1fc).testBit 9 = true) →
      0 < en7523_get_base_rate base i / en7523_get_div base i) ∧
    ((readl base 0x1fc).testBit 8 = true ∧ (readl base 0x1fc).testBit 9 = true
      ↔ reg_field (readl base 0x1fc) 8 2 = 3) ∧
    (en7523_base_clks.get npu_index).name = "npu" := by
  obtain ⟨hz, hpos⟩ := base_rate_zero_iff base i
  have hsel := selector_three_iff (readl base REG_NPU_CLK_DIV_SEL)
  have hreg : REG_NPU_CLK_DIV_SEL = 0x1fc := rfl
  rw [hreg] at hz hpos hsel
  have hd1 := en7523_get_div_pos base i
  have hd2 := en7523_get_div_le base i
  have key : ¬ (i = npu_index ∧ (readl base 0x1fc).testBit 8 = true
        ∧ (readl base 0x1fc).testBit 9 = true) →
      0 < en7523_get_base_rate base i / en7523_get_div base i := by
    intro hn
    have h64 : 64 ≤ en7523_get_base_rate base i := by
      apply hpos
      rintro ⟨h1, h2⟩
      exact hn ⟨h1, hsel.mp h2⟩
    exact Nat.div_pos (le_trans hd2 h64) hd1
  refine ⟨⟨?_, ?_⟩, key, hsel.symm, rfl⟩
  · intro h0
    by_contra hn
    exact absurd h0 (Nat.pos_iff_ne_zero.mp (key hn))
  · rintro ⟨h1, h2⟩
    rw [hz.mpr ⟨h1, hsel.mpr h2⟩, Nat.zero_div]

/-- Witness of C18: NPU with selector 3 resolves to 0, GSW on the same block
does not. -/
theorem en7523_rate_zero_iff_witness :
    en7523_get_base_rate (fun _ => 0x300) npu_index
      / en7523_get_div (fun _ => 0x300) npu_index = 0 ∧
    0 < en7523_get_base_rate (fun _ => 0x300) gsw_index
      / en7523_get_div (fun _ => 0x300) gsw_index :=
  ⟨(en7523_rate_zero_iff (fun _ => 0x300) npu_index).1.mpr ⟨rfl, by decide, by decide⟩,
   (en7523_rate_zero_iff (fun _ => 0x300) gsw_index).2.1 (by decide)⟩

/-! ## Frame of the GPIO direction change -/

theorem after_dir_writes_other_dir (ctrl : econet_gpio_ctrl) (gpio dir output n : Nat)
    (h : n ≠ gpio / 16) :
    (after_dir_writes ctrl gpio dir output).regs (gpio_reg.dir n) = ctrl.regs (gpio_reg.dir n) := by
  simp [after_dir_writes, iowrite32, h]

theorem set_bit_frame (x m i : Nat) (h : i ≠ m) :
    (((x % U32_MOD ||| BIT m) % U32_MOD) % U32_MOD).testBit i = (x % U32_MOD).testBit i := by
  rw [testBit_mod_u32, testBit_mod_u32, Nat.testBit_or, testBit_BIT, testBit_mod_u32]
  by_cases h32 : i < 32 <;> simp [h32, Ne.symm h]

theorem clear_bit_frame (x m i : Nat) (h : i ≠ m) :
    (((x % U32_MOD &&& not32 (BIT m)) % U32_MOD) % U32_MOD).testBit i
      = (x % U32_MOD).testBit i := by
  rw [testBit_mod_u32, testBit_mod_u32, Nat.testBit_and, testBit_not32, testBit_BIT,
    testBit_mod_u32]
  by_cases h32 : i < 32 <;> simp [h32, Ne.symm h]

theorem dir_set_regs_dir (gc : gpio_chip)
    (hset : ∀ gpio val regs n, gc.set gpio val regs (gpio_reg.dir n) = regs (gpio_reg.dir n))
    (ctrl : econet_gpio_ctrl) (g : Nat) (v out : Int) (n : Nat) :
    (econet_dir_set gc ctrl g v out).1.regs (gpio_reg.dir n) =
      if n = g / 16 then
        (if out ≠ 0 then ioread32 ctrl (gpio_reg.dir (g / 16)) ||| BIT ((g % 16) * 2)
         else ioread32 ctrl (gpio_reg.dir (g / 16)) &&& not32 (BIT ((g % 16) * 2))) % U32_MOD
      else ctrl.regs (gpio_reg.dir n) := by
  by_cases ho : out ≠ 0
  · rw [econet_dir_set_out gc ctrl g v out ho]
    simp only [hset, if_pos ho]
    by_cases hn : n = g / 16
    · subst hn
      rw [after_dir_writes_dir, if_pos rfl]
    · rw [after_dir_writes_other_dir _ _ _ _ _ hn, if_neg hn]
  · rw [econet_dir_set_in gc ctrl g v out (not_not.mp ho), if_neg ho]
    by_cases hn : n = g / 16
    · subst hn
      rw [after_dir_writes_dir, if_pos rfl]
    · rw [after_dir_writes_other_dir _ _ _ _ _ hn, if_neg hn]

theorem dir_set_regs_output (gc : gpio_chip)
    (hset : ∀ gpio val regs, gc.set gpio val regs gpio_reg.output = regs gpio_reg.output)
    (ctrl : econet_gpio_ctrl) (g : Nat) (v out : Int) :
    (econet_dir_set gc ctrl g v out).1.regs gpio_reg.output =
      (if out ≠ 0 then ioread32 ctrl gpio_reg.output ||| BIT g
       else ioread32 ctrl gpio_reg.output &&& not32 (BIT g)) % U32_MOD := by
  by_cases ho : out ≠ 0
  · rw [econet_dir_set_out gc ctrl g v out ho]
    simp only [hset, if_pos ho]
    rw [after_dir_writes_output]
  · rw [econet_dir_set_in gc ctrl g v out (not_not.mp ho), if_neg ho, after_dir_writes_output]

theorem dir_set_dir_frame (gc : gpio_chip)
    (hset : ∀ gpio val regs n, gc.set gpio val regs (gpio_reg.dir n) = regs (gpio_reg.dir n))
    (ctrl : econet_gpio_ctrl) (g : Nat) (v out : Int) (i : Nat) (hi : i ≠ (g % 16) * 2) :
    (ioread32 (econet_dir_set gc ctrl g v out).1 (gpio_reg.dir (g / 16))).testBit i
      = (ioread32 ctrl (gpio_reg.dir (g / 16))).testBit i := by
  unfold ioread32
  rw [dir_set_regs_dir gc hset, if_pos rfl]
  by_cases ho : out ≠ 0
  · rw [if_pos ho]
    exact set_bit_frame _ _ _ hi
  · rw [if_neg ho]
    exact clear_bit_frame _ _ _ hi

theorem get_dir_eq_of_bit (a b m : Nat) (h : a.testBit m = b.testBit m) :
    a &&& BIT m = b &&& BIT m := by
  apply Nat.eq_of_testBit_eq
  intro i
  rw [Nat.testBit_and, Nat.testBit_and, testBit_BIT]
  by_cases hi : m = i
  · subst hi
    rw [h]
  · simp [hi]

/-- C17: for every line `g` in 0..31 and every register content, with a
value-set operation that leaves the direction and output-enable registers
alone, `econet_dir_set(g, v, out)` changes at most bit `(g mod 16) * 2` of
`dir[g / 16]` and bit `g` of the output-enable register: every other bit of
the two registers and the whole of every other direction register keep their
values.  Hence `econet_get_dir(h)` is the same before and after for every
line `h != g` in 0..31. -/
theorem econet_dir_set_frame (gc : gpio_chip)
    (hdir : ∀ gpio val regs n, gc.set gpio val regs (gpio_reg.dir n) = regs (gpio_reg.dir n))
    (hout : ∀ gpio val regs, gc.set gpio val regs gpio_reg.output = regs gpio_reg.output)
    (ctrl : econet_gpio_ctrl) (g : Nat) (_hg : g < 32) (v out : Int) :
    (∀ i, i ≠ (g % 16) * 2 →
      (ioread32 (econet_dir_set gc ctrl g v out).1 (gpio_reg.dir (g / 16))).testBit i
        = (ioread32 ctrl (gpio_reg.dir (g / 16))).testBit i) ∧
    (∀ i, i ≠ g →
      (ioread32 (econet_dir_set gc ctrl g v out).1 gpio_reg.output).testBit i
        = (ioread32 ctrl gpio_reg.output).testBit i) ∧
    (∀ n, n ≠ g / 16 →
      (econet_dir_set gc ctrl g v out).1.regs (gpio_reg.dir n) = ctrl.regs (gpio_reg.dir n)) ∧
    (econet_dir_set gc ctrl g v out).1.regs (gpio_reg.dir (1 - g / 16))
      = ctrl.regs (gpio_reg.dir (1 - g / 16)) ∧
    (∀ h, h < 32 → h ≠ g →
      (econet_get_dir (econet_dir_set gc ctrl g v out).1 h).2 = (econet_get_dir ctrl h).2) := by
  have hother : ∀ n, n ≠ g / 16 →
      (econet_dir_set gc ctrl g v out).1.regs (gpio_reg.dir n) = ctrl.regs (gpio_reg.dir n) := by
    intro n hn
    rw [dir_set_regs_dir gc hdir, if_neg hn]
  refine ⟨dir_set_dir_frame gc hdir ctrl g v out, ?_, hother, hother _ (by omega), ?_⟩
  · intro i hi
    unfold ioread32
    rw [dir_set_regs_output gc hout]
    by_cases ho : out ≠ 0
    · rw [if_pos ho]
      exact set_bit_frame _ _ _ hi
    · rw [if_neg ho]
      exact clear_bit_frame _ _ _ hi
  · intro h _ hne
    simp only [econet_get_dir]
    by_cases hhalf : h / 16 = g / 16
    · apply get_dir_eq_of_bit
      rw [hhalf]
      exact dir_set_dir_frame gc hdir ctrl g v out _ (by omega)
    · unfold ioread32
      rw [hother _ hhalf]

/-- Witness of C17: making line 17 an output on all-zero registers leaves the
direction read for line 16 (same half) and line 1 (other half) at 0. -/
theorem econet_dir_set_frame_witness :
    (econet_get_dir (econet_dir_set data_only_chip zero_gpio 17 1 1).1 16).2
      = (econet_get_dir zero_gpio 16).2 ∧
    (econet_get_dir (econet_dir_set data_only_chip zero_gpio 17 1 1).1 1).2
      = (econet_get_dir zero_gpio 1).2 :=
  ⟨(econet_dir_set_frame data_only_chip (fun _ _ _ _ => rfl) (fun _ _ _ => rfl) zero_gpio 17
      (by decide) 1 1).2.2.2.2 16 (by decide) (by decide),
   (econet_dir_set_frame data_only_chip (fun _ _ _ _ => rfl) (fun _ _ _ => rfl) zero_gpio 17
      (by decide) 1 1).2.2.2.2 1 (by decide) (by decide)⟩

/-! ## The export array after registration -/

theorem register_step_clks_ok (env : clk_services) (base : iomem) (s : register_state)
    (i : clk_index) (c : clk)
    (h : env.clk_register_fixed_rate s.calls (en7523_base_clks.get i).name
      (en7523_get_base_rate base i / en7523_get_div base i) = Except.ok c) :
    (en7523_register_clocks_step env base s i).clk_data.clks
      = s.clk_data.clks.set (en7523_base_clks.get i).id (some c) := by
  simp only [en7523_register_clocks_step, h]

theorem register_step_clks_error (env : clk_services) (base : iomem) (s : register_state)
    (i : clk_index) (e : Int)
    (h : env.clk_register_fixed_rate s.calls (en7523_base_clks.get i).name
      (en7523_get_base_rate base i / en7523_get_div base i) = Except.error e) :
    (en7523_register_clocks_step env base s i).clk_data.clks = s.clk_data.clks := by
  simp only [en7523_register_clocks_step, h]

theorem register_step_slot_frame (env : clk_services) (base : iomem) (s : register_state)
    (i : clk_index) (j : Nat) (h : (en7523_base_clks.get i).id ≠ j) :
    (en7523_register_clocks_step env base s i).clk_data.clks[j]? = s.clk_data.clks[j]? := by
  cases ho : env.clk_register_fixed_rate s.calls (en7523_base_clks.get i).name
      (en7523_get_base_rate base i / en7523_get_div base i) with
  | error e => rw [register_step_clks_error env base s i e ho]
  | ok c => rw [register_step_clks_ok env base s i c ho, List.getElem?_set_ne h]

theorem register_step_length (env : clk_services) (base : iomem) (s : register_state)
    (i : clk_index) :
    (en7523_register_clocks_step env base s i).clk_data.clks.length
      = s.clk_data.clks.length := by
  cases ho : env.clk_register_fixed_rate s.calls (en7523_base_clks.get i).name
      (en7523_get_base_rate base i / en7523_get_div base i) with
  | error e => rw [register_step_clks_error env base s i e ho]
  | ok c => rw [register_step_clks_ok env base s i c ho, List.length_set]

theorem register_loop_slot_frame (env : clk_services) (base : iomem) (j : Nat)
    (l : List clk_index) :
    ∀ s : register_state, (∀ i ∈ l, (en7523_base_clks.get i).id ≠ j) →
      (l.foldl (en7523_register_clocks_step env base) s).clk_data.clks[j]?
        = s.clk_data.clks[j]? := by
  induction l with
  | nil => intro s _; rfl
  | cons i l ih =>
    intro s h
    rw [List.foldl_cons, ih _ (fun k hk => h k (List.mem_cons_of_mem _ hk)),
      register_step_slot_frame env base s i j (h i (List.mem_cons_self _ _))]

theorem register_loop_length (env : clk_services) (base : iomem) (l : List clk_index) :
    ∀ s : register_state,
      (l.foldl (en7523_register_clocks_step env base) s).clk_data.clks.length
        = s.clk_data.clks.length := by
  induction l with
  | nil => intro s; rfl
  | cons i l ih =>
    intro s
    rw [List.foldl_cons, ih, register_step_length]

theorem finRange_split :
    ∀ i : clk_index,
      List.finRange (ARRAY_SIZE en7523_base_clks)
        = (List.finRange (ARRAY_SIZE en7523_base_clks)).take i.val
          ++ i :: (List.finRange (ARRAY_SIZE en7523_base_clks)).drop (i.val + 1) := by
  decide

theorem ids_before_differ :
    ∀ i : clk_index, ∀ k ∈ (List.finRange (ARRAY_SIZE en7523_base_clks)).take i.val,
      (en7523_base_clks.get k).id ≠ (en7523_base_clks.get i).id := by
  decide

theorem ids_after_differ :
    ∀ i : clk_index, ∀ k ∈ (List.finRange (ARRAY_SIZE en7523_base_clks)).drop (i.val + 1),
      (en7523_base_clks.get k).id ≠ (en7523_base_clks.get i).id := by
  decide

theorem id_lt_pcie :
    ∀ i : clk_index, (en7523_base_clks.get i).id < EN7523_CLK_PCIE := by
  decide

theorem register_clocks_slot (env : clk_services) (clk_data : clk_onecell_data)
    (base : iomem) (np_base : mmio) (hlen : clk_data.clks.length = EN7523_NUM_CLOCKS)
    (i : clk_index) :
    (en7523_register_clocks env clk_data base np_base).clk_data.clks[(en7523_base_clks.get i).id]?
      = match fixed_rate_outcome env base i with
        | Except.ok c => some (some c)
        | Except.error _ => clk_data.clks[(en7523_base_clks.get i).id]? := by
  have hid := id_lt_pcie i
  have hne : EN7523_CLK_PCIE ≠ (en7523_base_clks.get i).id := Nat.ne_of_gt hid
  simp only [en7523_register_clocks]
  rw [List.getElem?_set_ne hne, finRange_split i, List.foldl_append, List.foldl_cons,
    register_loop_slot_frame env base _ _ _ (ids_after_differ i)]
  have hcalls := register_loop_calls env base
    ((List.finRange (ARRAY_SIZE en7523_base_clks)).take i.val)
    { clk_data := clk_data, calls := [], errors := [] }
  have hframe := register_loop_slot_frame env base (en7523_base_clks.get i).id
    ((List.finRange (ARRAY_SIZE en7523_base_clks)).take i.val)
    { clk_data := clk_data, calls := [], errors := [] } (ids_before_differ i)
  have hlen2 := register_loop_length env base
    ((List.finRange (ARRAY_SIZE en7523_base_clks)).take i.val)
    { clk_data := clk_data, calls := [], errors := [] }
  simp only [List.nil_append] at hcalls
  generalize (List.foldl (en7523_register_clocks_step env base)
    { clk_data := clk_data, calls := [], errors := [] }
    ((List.finRange (ARRAY_SIZE en7523_base_clks)).take i.val)) = s1 at hcalls hframe hlen2 ⊢
  have hcb : s1.calls = calls_before base i := hcalls
  unfold fixed_rate_outcome
  rw [← hcb]
  cases ho : env.clk_register_fixed_rate s1.calls (en7523_base_clks.get i).name
      (en7523_get_base_rate base i / en7523_get_div base i) with
  | error e =>
    rw [register_step_clks_error env base s1 i e ho]
    exact hframe
  | ok c =>
    rw [register_step_clks_ok env base s1 i c ho]
    have hlt : (en7523_base_clks.get i).id < s1.clk_data.clks.length := by
      rw [hlen2, hlen]
      exact lt_trans hid (by decide)
    rw [List.getElem?_set_self hlt]

theorem register_clocks_call_at (env : clk_services) (clk_data : clk_onecell_data)
    (base : iomem) (np_base : mmio) (i : clk_index) :
    (en7523_register_clocks env clk_data base np_base).calls[i.val]?
      = some (resolved_call base i) := by
  rw [register_clocks_calls, List.getElem?_map]
  have h : ∀ k : clk_index, (List.finRange (ARRAY_SIZE en7523_base_clks))[k.val]? = some k := by
    decide
  rw [h i]
  rfl

/-- C11: with `clk_register_fixed_rate` an arbitrary oracle, which may fail on
any subset of its calls, `en7523_register_clocks` calls it exactly once for
every table entry, in table order, whatever the earlier outcomes; a handle
returned for an entry ends up in `clks[desc.id]`; after a failed registration
that slot keeps the content it had before; and `clk_num` is set to 8.  A
failure at index `k` therefore does not stop the registrations at indices
`k + 1` and beyond. -/
theorem en7523_register_clocks_continues (env : clk_services) (clk_data : clk_onecell_data)
    (base : iomem) (np_base : mmio) (hlen : clk_data.clks.length = EN7523_NUM_CLOCKS) :
    (en7523_register_clocks env clk_data base np_base).calls
      = (List.finRange (ARRAY_SIZE en7523_base_clks)).map (resolved_call base) ∧
    (en7523_register_clocks env clk_data base np_base).calls.map (fun c => c.name)
      = ["gsw", "emi", "bus", "slic", "spi", "npu", "crypto"] ∧
    (∀ i : clk_index,
      (en7523_register_clocks env clk_data base np_base).calls[i.val]?
        = some (resolved_call base i)) ∧
    (∀ (i : clk_index) (c : clk), fixed_rate_outcome env base i = Except.ok c →
      (en7523_register_clocks env clk_data base np_base).clk_data.clks[
          (en7523_base_clks.get i).id]? = some (some c)) ∧
    (∀ (i : clk_index) (e : Int), fixed_rate_outcome env base i = Except.error e →
      (en7523_register_clocks env clk_data base np_base).clk_data.clks[
          (en7523_base_clks.get i).id]? = clk_data.clks[(en7523_base_clks.get i).id]?) ∧
    (en7523_register_clocks env clk_data base np_base).clk_data.clk_num = 8 := by
  refine ⟨register_clocks_calls env clk_data base np_base, ?_,
    register_clocks_call_at env clk_data base np_base, ?_, ?_, rfl⟩
  · rw [register_clocks_calls]
    rfl
  · intro i c h
    rw [register_clocks_slot env clk_data base np_base hlen i, h]
  · intro i e h
    rw [register_clocks_slot env clk_data base np_base hlen i, h]

/-- Witness of C11: when only the registration of "bus" (index 2) fails, slot 2
stays empty and the later entry "slic" (index 3) is still registered and
stored in slot 3. -/
theorem en7523_register_clocks_continues_witness :
    (en7523_register_clocks (failing_only "bus") empty_clk_data (fun _ => 0)
        (uniform_window 0)).clk_data.clks[2]? = some none ∧
    (en7523_register_clocks (failing_only "bus") empty_clk_data (fun _ => 0)
        (uniform_window 0)).clk_data.clks[3]? = some (some { handle := 3 }) :=
  ⟨(en7523_register_clocks_continues (failing_only "bus") empty_clk_data (fun _ => 0)
      (uniform_window 0) rfl).2.2.2.2.1 ⟨2, by decide⟩ (-12) rfl,
   (en7523_register_clocks_continues (failing_only "bus") empty_clk_data (fun _ => 0)
      (uniform_window 0) rfl).2.2.2.1 slic_index { handle := 3 } rfl⟩

/-! ## Identifiers and export slots -/

theorem loop_clks_eq_stores (env : clk_services) (base : iomem) (l : List clk_index) :
    ∀ s : register_state,
      (l.foldl (en7523_register_clocks_step env base) s).clk_data.clks
        = apply_stores s.clk_data.clks (loop_stores env base l s.calls) := by
  induction l with
  | nil => intro s; rfl
  | cons i l ih =>
    intro s
    rw [List.foldl_cons, ih, register_step_calls]
    cases ho : env.clk_register_fixed_rate s.calls (en7523_base_clks.get i).name
        (en7523_get_base_rate base i / en7523_get_div base i) with
    | error e =>
      rw [register_step_clks_error env base s i e ho]
      simp only [loop_stores, ho]
    | ok c =>
      rw [register_step_clks_ok env base s i c ho]
      simp only [loop_stores, ho, apply_stores, List.foldl_cons]

theorem register_clocks_clks_eq_stores (env : clk_services) (clk_data : clk_onecell_data)
    (base : iomem) (np_base : mmio) :
    (en7523_register_clocks env clk_data base np_base).clk_data.clks
      = apply_stores clk_data.clks (en7523_register_clocks_stores env base np_base) := by
  simp only [en7523_register_clocks, en7523_register_clocks_stores, apply_stores,
    List.foldl_append, List.foldl_cons, List.foldl_nil]
  rw [loop_clks_eq_stores]
  rfl

theorem loop_stores_sublist (env : clk_services) (base : iomem) (l : List clk_index) :
    ∀ calls : List fixed_rate_call,
      List.Sublist ((loop_stores env base l calls).map Prod.fst)
        (l.map (fun i => (en7523_base_clks.get i).id)) := by
  induction l with
  | nil => intro calls; exact List.Sublist.slnil
  | cons i l ih =>
    intro calls
    cases ho : env.clk_register_fixed_rate calls (en7523_base_clks.get i).name
        (en7523_get_base_rate base i / en7523_get_div base i) with
    | error e =>
      simp only [loop_stores, ho, List.map_cons]
      exact List.Sublist.cons _ (ih _)
    | ok c =>
      simp only [loop_stores, ho, List.map_cons]
      exact List.Sublist.cons₂ _ (ih _)

theorem table_ids_with_pcie :
    (List.finRange (ARRAY_SIZE en7523_base_clks)).map (fun i => (en7523_base_clks.get i).id)
      ++ [EN7523_CLK_PCIE] = List.range EN7523_NUM_CLOCKS := by
  decide

theorem stores_sublist_range (env : clk_services) (base : iomem) (np_base : mmio) :
    List.Sublist ((en7523_register_clocks_stores env base np_base).map Prod.fst)
      (List.range EN7523_NUM_CLOCKS) := by
  rw [← table_ids_with_pcie]
  simp only [en7523_register_clocks_stores, List.map_append, List.map_cons, List.map_nil]
  exact List.Sublist.append (loop_stores_sublist env base _ _) (List.Sublist.refl _)

/-- C13: the `id` fields of the table are pairwise distinct, each below
`EN7523_NUM_CLOCKS` and none equal to `EN7523_CLK_PCIE`; with
`EN7523_CLK_PCIE` they are exactly 0..7.  Hence the stores
`en7523_register_clocks` makes into the export array, whatever the outcomes
of the registrations, go to pairwise distinct slots, all below 8, and when
every registration succeeds all eight slots of an 8-entry array are filled. -/
theorem en7523_ids_cover_slots (env : clk_services) (clk_data : clk_onecell_data)
    (base : iomem) (np_base : mmio) :
    (en7523_base_clks.map (fun d => d.id)).Nodup ∧
    (∀ d ∈ en7523_base_clks, d.id < EN7523_NUM_CLOCKS ∧ d.id ≠ EN7523_CLK_PCIE) ∧
    en7523_base_clks.map (fun d => d.id) ++ [EN7523_CLK_PCIE] = List.range 8 ∧
    (en7523_register_clocks env clk_data base np_base).clk_data.clks
      = apply_stores clk_data.clks (en7523_register_clocks_stores env base np_base) ∧
    ((en7523_register_clocks_stores env base np_base).map Prod.fst).Nodup ∧
    (∀ w ∈ en7523_register_clocks_stores env base np_base, w.1 < EN7523_NUM_CLOCKS) ∧
    (clk_data.clks.length = EN7523_NUM_CLOCKS →
      (∀ i : clk_index, ∃ c, fixed_rate_outcome env base i = Except.ok c) →
      (∃ c, (en7523_register_pcie_clk env np_base).clk = some c) →
      ∀ j, j < EN7523_NUM_CLOCKS → ∃ c,
        (en7523_register_clocks env clk_data base np_base).clk_data.clks[j]?
          = some (some c)) := by
  refine ⟨by decide, by decide, by decide,
    register_clocks_clks_eq_stores env clk_data base np_base,
    (stores_sublist_range env base np_base).nodup (List.nodup_range _), ?_, ?_⟩
  · intro w hw
    have hmem : w.1 ∈ (en7523_register_clocks_stores env base np_base).map Prod.fst :=
      List.mem_map_of_mem _ hw
    exact List.mem_range.mp ((stores_sublist_range env base np_base).subset hmem)
  · intro hlen hall hpcie j hj
    by_cases h7 : j = EN7523_CLK_PCIE
    · obtain ⟨c, hc⟩ := hpcie
      refine ⟨c, ?_⟩
      subst h7
      simp only [en7523_register_clocks]
      rw [List.getElem?_set_self, hc]
      rw [← hlen] at hj
      simpa [register_loop_length] using hj
    · have hj7 : j < 7 := by
        have h8 : j < 8 := hj
        have hne : j ≠ 7 := h7
        omega
      have hid : ∀ i : clk_index, (en7523_base_clks.get i).id = i.val := by decide
      obtain ⟨c, hc⟩ := hall ⟨j, hj7⟩
      refine ⟨c, ?_⟩
      have hslot := register_clocks_slot env clk_data base np_base hlen ⟨j, hj7⟩
      rw [hc, hid] at hslot
      exact hslot

/-- Witness of C13: with every service granted, slot 7 (PCIe) and slot 3
(SLIC) of a fresh 8-entry array are filled. -/
theorem en7523_ids_cover_slots_witness :
    (∃ c, (en7523_register_clocks granting_services empty_clk_data (fun _ => 0)
        (uniform_window 0)).clk_data.clks[7]? = some (some c)) ∧
    (∃ c, (en7523_register_clocks granting_services empty_clk_data (fun _ => 0)
        (uniform_window 0)).clk_data.clks[3]? = some (some c)) :=
  ⟨(en7523_ids_cover_slots granting_services empty_clk_data (fun _ => 0)
      (uniform_window 0)).2.2.2.2.2.2 rfl (fun _ => ⟨_, rfl⟩) ⟨_, rfl⟩ 7 (by decide),
   (en7523_ids_cover_slots granting_services empty_clk_data (fun _ => 0)
      (uniform_window 0)).2.2.2.2.2.2 rfl (fun _ => ⟨_, rfl⟩) ⟨_, rfl⟩ 3 (by decide)⟩

/-! ## Probe and the mapping of the register windows -/

theorem probe_window0_failure (env : probe_services) (e : Int)
    (h : env.ioremap_0 = io_ptr.err_ptr e) :
    (en7523_clk_probe env).outcome = probe_outcome.returned e ∧
    (en7523_clk_probe env).calls = [] ∧
    (en7523_clk_probe env).provider = none := by
  simp [en7523_clk_probe, h, IS_ERR, PTR_ERR]

theorem register_clocks_loop_calls (env : clk_services) (clk_data : clk_onecell_data)
    (base : iomem) :
    (en7523_register_clocks_loop env clk_data base).calls
      = (List.finRange (ARRAY_SIZE en7523_base_clks)).map (resolved_call base) := by
  unfold en7523_register_clocks_loop
  rw [register_loop_calls, List.nil_append]

theorem probe_window1_failure (env : probe_services) (addr : Nat) (base : iomem) (e : Int)
    (h0 : env.ioremap_0 = io_ptr.mapped addr base)
    (h1 : env.ioremap_1 = io_ptr.err_ptr e)
    (ha : env.kzalloc_clk_data = true) (hb : env.kcalloc_clks = true) :
    (en7523_clk_probe env).calls
      = (List.finRange (ARRAY_SIZE en7523_base_clks)).map (resolved_call base) ∧
    (env.clk.devm_kzalloc = true → (en7523_clk_probe env).outcome = probe_outcome.fault) ∧
    (env.clk.devm_kzalloc = false → (en7523_clk_probe env).provider ≠ none) := by
  have hp : en7523_clk_probe env
      = probe_register env { clks := List.replicate EN7523_NUM_CLOCKS none, clk_num := 0 }
          (io_ptr.mapped addr base) (io_ptr.err_ptr e) := by
    simp [en7523_clk_probe, h0, h1, ha, hb, IS_ERR]
  rw [hp]
  refine ⟨?_, ?_, ?_⟩
  · simp only [probe_register]
    split <;> exact register_clocks_loop_calls _ _ _
  · intro hk
    simp [probe_register, hk]
  · intro hk
    simp [probe_register, hk]

/-- C12 on the code: when window 0 maps and the mapping of window 1 fails with
-16, `en7523_clk_probe` does not return -16: the test after the second mapping
looks at `base`, so probe goes on, makes all seven fixed-rate registrations,
and faults when the PCIe gate is disabled through the error pointer. -/
theorem en7523_clk_probe_window1_unchecked :
    (en7523_clk_probe window1_fails).outcome ≠ probe_outcome.returned (-16) ∧
    (en7523_clk_probe window1_fails).outcome = probe_outcome.fault ∧
    (en7523_clk_probe window1_fails).calls.map (fun c => c.name)
      = ["gsw", "emi", "bus", "slic", "spi", "npu", "crypto"] ∧
    (en7523_clk_probe window1_fails).calls ≠ [] := by
  refine ⟨by decide, by decide, by decide, ?_⟩
  intro h
  have hlen := congrArg List.length h
  revert hlen
  decide

end EN7523
